import Mathlib

/-!
Shallow embedding of the dashboard publisher of `go-grafana-toolkit`
(package `publisher`, with the parts of package `client` it depends on).

Dashboard JSON documents (`map[string]interface{}` in the source) are
modelled by the inductive `JValue`; objects are association lists whose
operations mirror Go map reads, writes and deletes (a read of an absent
key yields the nil interface, modelled as `JValue.null`, exactly as a
stored JSON `null` does).  Remote calls (stack client operations) are
passed in as explicit oracle functions, and stateful runs are modelled
by explicit state passing.  Go byte-string lengths are modelled by the
length of the UTF-8 encoding of the string.
-/

namespace Grafana

/-! ## SHA-256 (the `crypto/sha256` function used by `GenerateUniqueID`) -/

/-- 2^32, the modulus of all 32-bit word arithmetic in SHA-256. -/
def m32 : Nat := 4294967296

/-- Right-rotation of a 32-bit word (represented as a `Nat` below `m32`). -/
def rotr (n x : Nat) : Nat :=
  (x / 2 ^ n + x % 2 ^ n * 2 ^ (32 - n)) % m32

/-- Bitwise complement on 32 bits. -/
def not32 (x : Nat) : Nat := Nat.xor x 4294967295

def ch (x y z : Nat) : Nat := Nat.xor (Nat.land x y) (Nat.land (not32 x) z)

def maj (x y z : Nat) : Nat :=
  Nat.xor (Nat.xor (Nat.land x y) (Nat.land x z)) (Nat.land y z)

def bsig0 (x : Nat) : Nat := Nat.xor (Nat.xor (rotr 2 x) (rotr 13 x)) (rotr 22 x)
def bsig1 (x : Nat) : Nat := Nat.xor (Nat.xor (rotr 6 x) (rotr 11 x)) (rotr 25 x)
def ssig0 (x : Nat) : Nat := Nat.xor (Nat.xor (rotr 7 x) (rotr 18 x)) (x / 2 ^ 3)
def ssig1 (x : Nat) : Nat := Nat.xor (Nat.xor (rotr 17 x) (rotr 19 x)) (x / 2 ^ 10)

/-- The 64 SHA-256 round constants. -/
def K : List Nat :=
  [1116352408, 1899447441, 3049323471, 3921009573,
   961987163, 1508970993, 2453635748, 2870763221,
   3624381080, 310598401, 607225278, 1426881987,
   1925078388, 2162078206, 2614888103, 3248222580,
   3835390401, 4022224774, 264347078, 604807628,
   770255983, 1249150122, 1555081692, 1996064986,
   2554220882, 2821834349, 2952996808, 3210313671,
   3336571891, 3584528711, 113926993, 338241895,
   666307205, 773529912, 1294757372, 1396182291,
   1695183700, 1986661051, 2177026350, 2456956037,
   2730485921, 2820302411, 3259730800, 3345764771,
   3516065817, 3600352804, 4094571909, 275423344,
   430227734, 506948616, 659060556, 883997877,
   958139571, 1322822218, 1537002063, 1747873779,
   1955562222, 2024104815, 2227730452, 2361852424,
   2428436474, 2756734187, 3204031479, 3329325298]

/-- The SHA-256 working state: eight 32-bit words. -/
structure Hash8 where
  a : Nat
  b : Nat
  c : Nat
  d : Nat
  e : Nat
  f : Nat
  g : Nat
  h : Nat

/-- Initial SHA-256 hash value. -/
def initH : Hash8 :=
  ⟨1779033703, 3144134277, 1013904242, 2773480762,
   1359893119, 2600822924, 528734635, 1541459225⟩

/-- One SHA-256 compression round; the pair carries (round constant, schedule word). -/
def sha256Round (st : Hash8) (kw : Nat × Nat) : Hash8 :=
  let t1 := (st.h + bsig1 st.e + ch st.e st.f st.g + kw.1 + kw.2) % m32
  let t2 := (bsig0 st.a + maj st.a st.b st.c) % m32
  ⟨(t1 + t2) % m32, st.a, st.b, st.c, (st.d + t1) % m32, st.e, st.f, st.g⟩

/-- Big-endian grouping of bytes into 32-bit words. -/
def bytesToWords : List Nat → List Nat
  | b0 :: b1 :: b2 :: b3 :: rest =>
      (b0 * 16777216 + b1 * 65536 + b2 * 256 + b3) % m32 :: bytesToWords rest
  | _ => []

/-- One step extending the message schedule by its next word. -/
def scheduleStep (w : List Nat) (_i : Nat) : List Nat :=
  let n := w.length
  w ++ [(ssig1 (w.getD (n - 2) 0) + w.getD (n - 7) 0
         + ssig0 (w.getD (n - 15) 0) + w.getD (n - 16) 0) % m32]

/-- The 64-word message schedule of one block (given as 16 words). -/
def schedule (block : List Nat) : List Nat :=
  (List.range 48).foldl scheduleStep block

/-- SHA-256 compression of one 64-byte block into the running hash. -/
def compress (st : Hash8) (block : List Nat) : Hash8 :=
  let w := schedule (bytesToWords block)
  let r := (K.zip w).foldl sha256Round st
  ⟨(st.a + r.a) % m32, (st.b + r.b) % m32, (st.c + r.c) % m32, (st.d + r.d) % m32,
   (st.e + r.e) % m32, (st.f + r.f) % m32, (st.g + r.g) % m32, (st.h + r.h) % m32⟩

/-- Big-endian bytes of a 32-bit word. -/
def wordBytes (w : Nat) : List Nat :=
  [w / 16777216 % 256, w / 65536 % 256, w / 256 % 256, w % 256]

/-- The 32-byte digest of a final hash state. -/
def digestBytes (st : Hash8) : List Nat :=
  wordBytes st.a ++ wordBytes st.b ++ wordBytes st.c ++ wordBytes st.d ++
  wordBytes st.e ++ wordBytes st.f ++ wordBytes st.g ++ wordBytes st.h

/-- SHA-256 padding: append `0x80`, zero bytes, and the 64-bit big-endian bit length. -/
def pad (msg : List Nat) : List Nat :=
  let bitLen := msg.length * 8
  let zeros := (119 - msg.length % 64) % 64
  msg ++ [128] ++ List.replicate zeros 0 ++
    [bitLen / 2 ^ 56 % 256, bitLen / 2 ^ 48 % 256, bitLen / 2 ^ 40 % 256, bitLen / 2 ^ 32 % 256,
     bitLen / 2 ^ 24 % 256, bitLen / 2 ^ 16 % 256, bitLen / 2 ^ 8 % 256, bitLen % 256]

/-- Split a byte list into 64-byte blocks. -/
def toBlocks (l : List Nat) : List (List Nat) :=
  if h : l = [] then []
  else
    have : l.length - 64 < l.length := by
      have : 0 < l.length := List.length_pos.mpr h
      omega
    l.take 64 :: toBlocks (l.drop 64)
termination_by l.length
decreasing_by simpa using this

/-- SHA-256 of a byte sequence, as its 32-byte digest. -/
def sha256 (msg : List Nat) : List Nat :=
  digestBytes ((toBlocks (pad msg)).foldl compress initH)

/-! ## UTF-8 encoding (a Go `string` is its UTF-8 byte sequence) -/

/-- The UTF-8 bytes of one character. -/
def encodeChar (c : Char) : List Nat :=
  if c.toNat < 128 then [c.toNat]
  else if c.toNat < 2048 then [192 + c.toNat / 64, 128 + c.toNat % 64]
  else if c.toNat < 65536 then
    [224 + c.toNat / 4096, 128 + c.toNat / 64 % 64, 128 + c.toNat % 64]
  else
    [240 + c.toNat / 262144, 128 + c.toNat / 4096 % 64, 128 + c.toNat / 64 % 64,
     128 + c.toNat % 64]

/-- The UTF-8 bytes of a string. -/
def strBytes (s : String) : List Nat :=
  (s.data.map encodeChar).flatten

/-- Go's `len` on a string: the number of bytes of its UTF-8 encoding. -/
def goLen (s : String) : Nat :=
  (strBytes s).length

/-! ## `GenerateUniqueID` (publisher.go lines 25-28) -/

/-- The sixteen lowercase hexadecimal digit characters, as printed by Go's `%x`. -/
def hexDigits : List Char :=
  "0123456789abcdef".data

/-- The hexadecimal digit character of a value (taken mod 16). -/
def hexDigit (n : Nat) : Char :=
  hexDigits.getD (n % 16) '0'

/-- The two hexadecimal characters of one byte, as printed by Go's `%x`. -/
def byteHex (b : Nat) : List Char :=
  [hexDigit (b / 16), hexDigit b]

/-- `GenerateUniqueID` hashes the input with SHA-256, prints the digest as
64 lowercase hexadecimal characters, and keeps the first 40. -/
def GenerateUniqueID (input : String) : String :=
  ⟨(((sha256 (strBytes input)).map byteHex).flatten).take 40⟩

/-! ## Dashboard JSON documents

Go's `json.Decode` into `map[string]interface{}` yields nested values of
dynamic type: `nil`, `bool`, `float64`, `string`, `[]interface{}` and
`map[string]interface{}`.  Objects are modelled as association lists; a
map read of an absent key yields the nil interface, identified with a
stored JSON `null` (`JValue.null`), exactly as in Go. -/

inductive JValue where
  | null
  | jbool (b : Bool)
  | jnum (n : Int)
  | jstr (s : String)
  | jarr (elems : List JValue)
  | jobj (fields : List (String × JValue))

/-- Go map read `m[k]`: the stored value, or the nil interface when absent. -/
def jGet (o : List (String × JValue)) (k : String) : JValue :=
  match o.find? (fun p => p.1 == k) with
  | some p => p.2
  | none => JValue.null

/-- Go `delete(m, k)`. -/
def jDel (o : List (String × JValue)) (k : String) : List (String × JValue) :=
  o.filter (fun p => p.1 != k)

/-- Go map write `m[k] = v`.  A Go map is unordered, so the association
list order is not observable anywhere in the program; the write is
modelled as prepending the new binding over any previous one. -/
def jSet (o : List (String × JValue)) (k : String) (v : JValue) :
    List (String × JValue) :=
  (k, v) :: jDel o k

/-- Whether the key is present in the object. -/
def hasKey (o : List (String × JValue)) (k : String) : Bool :=
  o.any (fun p => p.1 == k)

/-- Go's one-result interface comparison `v == s` against a string constant:
true exactly when the dynamic type is `string` and the values agree. -/
def isStr (v : JValue) (s : String) : Bool :=
  match v with
  | .jstr t => t == s
  | _ => false

/-- Go's comma-ok string type assertion `v.(string)`. -/
def asString (v : JValue) : Option String :=
  match v with
  | .jstr s => some s
  | _ => none

/-! ## Configuration and client data model -/

/-- A (localFolder, grafanaFolder) binding (config.go `DashboardReference`). -/
structure DashboardReference where
  localFolder : String
  grafanaFolder : String

/-- The publisher configuration (config.go `PublisherConfig`).  The
`tags`, `rootFolder` and `idSuffix` fields are not present in the copy of
`config.go` available here but are used by `publisher.go`
(`p.config.Tags : []string`, `p.config.RootFolder : string`,
`p.config.IDSuffix : string`) and documented in the README; their types
are taken from those uses.  A Go `nil` slice of tags is `none`. -/
structure PublisherConfig where
  exclusions : List String
  commonDashboards : List DashboardReference
  customDashboards : List DashboardReference
  customStack : String
  testStack : String
  tags : Option (List String)
  rootFolder : String
  idSuffix : String

/-- A GrafanaCloud stack (client `Stack`). -/
structure Stack where
  logsInstanceID : Int
  metricsInstanceID : Int
  promURL : String
  logsURL : String
  stackID : Int
  slug : String
  stackURL : String
deriving DecidableEq

/-- The zero value `grafana.Stack{}` returned by `stackByName` on no match. -/
def zeroStack : Stack := ⟨0, 0, "", "", 0, "", ""⟩

/-- A Grafana folder (client `Folder`). -/
structure Folder where
  uid : String
  title : String

/-- The part of the datasource record the publisher reads (`datasource.User`). -/
structure Datasource where
  name : String
  user : String

/-- The upload payload (client `Dashboard`: FolderUID, UID, Dashboard). -/
structure Dashboard where
  folderUID : String
  uid : String
  dashboard : List (String × JValue)

/-- Outcome classification of one file of the walk: an error returned by the
walk function, or a Go runtime panic raised by a failed unchecked type
assertion (`x.(T)` without comma-ok). -/
inductive SyncError where
  | fail (msg : String)
  | typeAssertPanic (msg : String)

/-! ## Document transformer (publisher.go, `.json` branch of
`syncDashboardsForStack`, lines 309-436) -/

/-- The `current` selection object written for datasource variables:
`{"selected": false, "text": text, "value": value}`. -/
def selCurrent (text value : String) : JValue :=
  .jobj [("selected", .jbool false), ("text", .jstr text), ("value", .jstr value)]

/-- The datasource-variable arm of the entry rewrite (lines 342-366): the
Go `switch parameter["name"]` with its fixed name → datasource-name table.
Go compares the interface value against each case's string constant, which
is the chain of `isStr` tests below. -/
def dsRewrite (slug : String) (p : List (String × JValue)) :
    List (String × JValue) :=
  if isStr (jGet p "type") "datasource" then
    if isStr (jGet p "name") "PROMPRO" || isStr (jGet p "name") "P1EUW1" then
      jSet p "current" (selCurrent ("grafanacloud-" ++ slug ++ "-prom")
                                   ("grafanacloud-" ++ slug ++ "-prom"))
    else if isStr (jGet p "name") "LOGSPRO" then
      jSet p "current" (selCurrent ("grafanacloud-" ++ slug ++ "-logs")
                                   ("grafanacloud-" ++ slug ++ "-logs"))
    else if isStr (jGet p "name") "LOGUSAGE" then
      jSet p "current" (selCurrent ("grafanacloud-" ++ slug ++ "-usage-insights")
                                   "grafanacloud-usage-insights")
    else p
  else p

/-- Rewriting of one `templating.list` entry (lines 340-392).  The entry is
already known to be an object.  `getDS` is the stack client's
`GetDataSource`. -/
def rewriteParam (slug : String) (getDS : String → Except String Datasource)
    (p : List (String × JValue)) : Except SyncError (List (String × JValue)) :=
  let p1 := dsRewrite slug p
  if isStr (jGet p1 "type") "custom" then
    if isStr (jGet p1 "name") "STACKID" then
      match getDS ("grafanacloud-" ++ slug ++ "-logs") with
      | .error e => .error (.fail e)
      | .ok ds =>
          .ok (jSet (jSet (jSet p1 "current" (selCurrent ds.user ds.user))
                "options"
                (.jarr [.jobj [("selected", .jbool true), ("text", .jstr ds.user),
                               ("value", .jstr ds.user)]]))
              "query" (.jstr ds.user))
    else .ok p1
  else .ok p1

/-- Rewriting of the whole `templating.list` array; every element goes
through the unchecked assertion `param.(map[string]interface{})`. -/
def rewriteParams (slug : String) (getDS : String → Except String Datasource) :
    List JValue → Except SyncError (List JValue)
  | [] => .ok []
  | v :: rest =>
      match v with
      | .jobj p =>
          match rewriteParam slug getDS p with
          | .error e => .error e
          | .ok p2 =>
              match rewriteParams slug getDS rest with
              | .error e => .error e
              | .ok rest2 => .ok (.jobj p2 :: rest2)
      | _ => .error (.typeAssertPanic "templating list entry is not an object")

/-- The identifier rule (lines 399-414): document `uid` if it is a string,
otherwise a hash of the `title`; the configured suffix is appended when a
root folder is configured; identifiers longer than 40 bytes are replaced
by a fresh hash. -/
def resolveUID (cfg : PublisherConfig) (dash : List (String × JValue)) :
    Except SyncError String :=
  match asString (jGet dash "uid") with
  | some u => .ok (finishUID cfg u)
  | none =>
      match asString (jGet dash "title") with
      | some t => .ok (finishUID cfg (GenerateUniqueID t))
      | none => .error (.fail "unable to find dashboard title")
where
  /-- Suffixing and the 40-byte cap (lines 408-414). -/
  finishUID (cfg : PublisherConfig) (uid : String) : String :=
    let uid1 := if cfg.rootFolder ≠ "" then uid ++ cfg.idSuffix else uid
    if goLen uid1 > 40 then GenerateUniqueID uid1 else uid1

/-- Tag appending (lines 417-426): when a tag list is configured, append
each configured tag to the document tag list (empty when absent or not an
array), without deduplication. -/
def appendTags (cfg : PublisherConfig) (dash : List (String × JValue)) :
    List (String × JValue) :=
  match cfg.tags with
  | none => dash
  | some ts =>
      let tags0 := match jGet dash "tags" with
        | .jarr l => l
        | _ => []
      jSet dash "tags" (.jarr (tags0 ++ ts.map JValue.jstr))

/-- The tail of the `.json` transformation after the templating rewrite
(lines 396-432): remove `id`, resolve the identifier, write it back,
append configured tags, and build the upload payload. -/
def transformCore (cfg : PublisherConfig) (folderUID : String)
    (dash2 : List (String × JValue)) : Except SyncError Dashboard :=
  let dash3 := jDel dash2 "id"
  match resolveUID cfg dash3 with
  | .error e => .error e
  | .ok uid =>
      let dash4 := jSet dash3 "uid" (.jstr uid)
      .ok ⟨folderUID, uid, appendTags cfg dash4⟩

/-- The templating rewrite of the whole document (lines 335-394): absent
(or null) `templating` is skipped; otherwise the unchecked assertions to
an object holding an array apply, and the rewritten list is written back. -/
def rewriteTemplating (slug : String) (getDS : String → Except String Datasource)
    (dash1 : List (String × JValue)) :
    Except SyncError (List (String × JValue)) :=
  match jGet dash1 "templating" with
  | .null => .ok dash1
  | .jobj t =>
      match jGet t "list" with
      | .jarr params =>
          match rewriteParams slug getDS params with
          | .error e => .error e
          | .ok params2 =>
              .ok (jSet dash1 "templating" (.jobj (jSet t "list" (.jarr params2))))
      | _ => .error (.typeAssertPanic "templating list is not an array of values")
  | _ => .error (.typeAssertPanic "templating is not an object")

/-- The full `.json` document transformation: from the decoded top-level
document to the `grafana.Dashboard` value passed to `UploadDashboard`. -/
def transformDashboard (cfg : PublisherConfig) (slug folderUID : String)
    (getDS : String → Except String Datasource)
    (doc : List (String × JValue)) : Except SyncError Dashboard :=
  match jGet doc "dashboard" with
  | .null => .error (.fail "unable to find dashboard")
  | .jobj dash0 =>
      let dash1 := jSet (jDel dash0 "folderId") "folderUid" (.jstr folderUID)
      match rewriteTemplating slug getDS dash1 with
      | .error e => .error e
      | .ok dash2 => transformCore cfg folderUID dash2
  | _ => .error (.typeAssertPanic "dashboard is not an object")

/-! ## File processing (`.deleted` branch, lines 438-468, and the
extension dispatch of the walk function, lines 309-472) -/

/-- Remote calls issued for one file, in order. -/
inductive StackCall where
  | upload (d : Dashboard)
  | deleteDash (uid : String)

/-- The `.deleted` branch: decode, require a `dashboard` object and a string
`uid`; delete only when `GetDashboard` succeeds (an existence-check failure
is silent success).  `getDash` and `deleteDash` are the stack client's
`GetDashboard` and `DeleteDashboard`; the result lists the issued calls. -/
def processDeletedFile (getDash : String → Except String Unit)
    (deleteDash : String → Option String)
    (doc : List (String × JValue)) : Except SyncError (List StackCall) :=
  match jGet doc "dashboard" with
  | .null => .error (.fail "unable to find dashboard")
  | .jobj dash =>
      match jGet dash "uid" with
      | .null => .error (.fail "unable to find dashboard uid")
      | v =>
          match asString v with
          | none => .error (.fail "dashboard uid is not a string")
          | some uid =>
              match getDash uid with
              | .ok _ =>
                  match deleteDash uid with
                  | none => .ok [.deleteDash uid]
                  | some e => .error (.fail e)
              | .error _ => .ok []
  | _ => .error (.typeAssertPanic "dashboard is not an object")

/-- The `.json` branch: transform, then upload.  `uploadDash` is the stack
client's `UploadDashboard` (`none` = success). -/
def processJsonFile (cfg : PublisherConfig) (slug folderUID : String)
    (getDS : String → Except String Datasource)
    (uploadDash : Dashboard → Option String)
    (doc : List (String × JValue)) : Except SyncError (List StackCall) :=
  match transformDashboard cfg slug folderUID getDS doc with
  | .error e => .error e
  | .ok d =>
      match uploadDash d with
      | none => .ok [.upload d]
      | some e => .error (.fail ("failed to upload dashboard " ++ folderUID ++ ": " ++ e))

/-- The extension dispatch of the walk function (`switch filepath.Ext(path)`);
`ext` is the value of `filepath.Ext(path)`. -/
def processFile (cfg : PublisherConfig) (slug folderUID : String)
    (getDS : String → Except String Datasource)
    (uploadDash : Dashboard → Option String)
    (getDash : String → Except String Unit)
    (deleteDash : String → Option String)
    (ext : String) (doc : List (String × JValue)) :
    Except SyncError (List StackCall) :=
  if ext == ".json" then
    processJsonFile cfg slug folderUID getDS uploadDash doc
  else if ext == ".deleted" then
    processDeletedFile getDash deleteDash doc
  else
    .error (.fail ("unsupported file extension " ++ ext))

/-! ## Stack selection (Publish, lines 143-169, and `stackByName`) -/

/-- `initExclusionsMap` builds a set keyed by the exclusion slugs; the map
membership test `_, ok := exclusionsMap[slug]` is list membership. -/
def initExclusionsMap (exclusions : List String) (slug : String) : Bool :=
  exclusions.contains slug

/-- `stackByName`: first stack with the given slug, or the zero value. -/
def stackByName (sts : List Stack) (name : String) : Stack :=
  match sts.find? (fun s => s.slug == name) with
  | some s => s
  | none => zeroStack

/-- The stack-selection part of `Publish` (lines 148-169): filter the
enumerated stacks by the exclusion set, then pick the shared-dashboard
and custom-dashboard target lists per mode. -/
def selectStacks (cfg : PublisherConfig) (syncAllStacks : Bool)
    (allStacks : List Stack) : List Stack × List Stack :=
  let common := allStacks.filter (fun s => !(initExclusionsMap cfg.exclusions s.slug))
  if syncAllStacks then
    (common, [stackByName common cfg.customStack])
  else
    let t := stackByName common cfg.testStack
    ([t], [t])

/-! ## Retry coordinator (`syncDashboards`, lines 204-252)

The per-stack reconciliation `syncDashboardsForStack` is abstracted as a
state transformer `f : Stack → σ → σ × Option String` (the state stands
for the world the remote calls act on; `some msg` is a returned error),
exactly the shape of the call `p.syncDashboardsForStack(&stack, ...)`. -/

/-- The first pass over all stacks, collecting the failed ones in order
(lines 224-232). -/
def firstPass {σ : Type} (f : Stack → σ → σ × Option String) :
    List Stack → σ → List (Stack × String) → σ × List (Stack × String)
  | [], st, fs => (st, fs)
  | stack :: rest, st, fs =>
      match f stack st with
      | (st2, none) => firstPass f rest st2 fs
      | (st2, some msg) => firstPass f rest st2 (fs ++ [(stack, msg)])

/-- The retry pass over the failed stacks (lines 243-248): each failed stack
is re-attempted once, and the first stack failing again aborts with its
wrapped error. -/
def retryFailed {σ : Type} (f : Stack → σ → σ × Option String) :
    List (Stack × String) → σ → σ × Option String
  | [], st => (st, none)
  | (stack, _) :: rest, st =>
      match f stack st with
      | (st2, some msg) =>
          (st2, some ("Retry of stack " ++ stack.slug ++ " failed: " ++ msg))
      | (st2, none) => retryFailed f rest st2

/-- `syncDashboards` for one binding: skip when the local folder is absent,
otherwise run the first pass and then retry the failed subset once. -/
def syncDashboards {σ : Type} (f : Stack → σ → σ × Option String)
    (localFolderExists : Bool) (sts : List Stack) (st : σ) :
    σ × Option String :=
  if localFolderExists then
    match firstPass f sts st [] with
    | (st1, failed) => retryFailed f failed st1
  else (st, none)

/-- Instrumented per-stack reconciliation: the state counts, per slug, how
many times the stack has been attempted; `outcome s n` is the result the
remote side produces for the `n`-th attempt (0-based) of the stack with
slug `s` (`none` = success). -/
def countSync (outcome : String → Nat → Option String) (stack : Stack)
    (cnt : String → Nat) : (String → Nat) × Option String :=
  (fun x => if x = stack.slug then cnt stack.slug + 1 else cnt x,
   outcome stack.slug (cnt stack.slug))

/-- The stacks failing their first attempt under `outcome`, with their
error messages, in stack order. -/
def failsOf (outcome : String → Nat → Option String) (sts : List Stack) :
    List (Stack × String) :=
  sts.filterMap (fun t =>
    match outcome t.slug 0 with
    | some m => some (t, m)
    | none => none)

/-! ## Publish (lines 128-194) -/

/-- The binding loops of `Publish` (lines 171-191): a binding with a blank
local or destination folder is skipped; the first failing binding aborts
with a wrapped error. -/
def runBindings {σ : Type} (sync1 : String → String → σ → σ × Option String) :
    List DashboardReference → σ → σ × Option String
  | [], st => (st, none)
  | b :: rest, st =>
      if b.localFolder ≠ "" ∧ b.grafanaFolder ≠ "" then
        match sync1 b.localFolder b.grafanaFolder st with
        | (st2, some e) =>
            (st2, some ("sync failed (" ++ b.localFolder ++ " -> " ++
                        b.grafanaFolder ++ "): " ++ e))
        | (st2, none) => runBindings sync1 rest st2
      else runBindings sync1 rest st

/-- `Publish`: the credential gate, stack enumeration, exclusion filtering,
mode-dependent target selection, and the custom-then-common binding loops.
`tokenPresent` is whether `GRAFANA_CLOUD_TOKEN` is set; `listStacks` is the
cloud client's `ListStacks`; `syncStack lf gf stack` is
`syncDashboardsForStack` for the binding (lf, gf); `localExists` is the
filesystem stat of a local folder. -/
def publishModel {σ : Type} (cfg : PublisherConfig) (tokenPresent : Bool)
    (syncAllStacks : Bool)
    (listStacks : σ → σ × Except String (List Stack))
    (syncStack : String → String → Stack → σ → σ × Option String)
    (localExists : String → Bool)
    (st : σ) : σ × Option String :=
  if tokenPresent then
    match listStacks st with
    | (st1, .error e) => (st1, some ("failed to list stacks: " ++ e))
    | (st1, .ok allStacks) =>
        let sel := selectStacks cfg syncAllStacks allStacks
        match runBindings
            (fun lf gf s =>
              syncDashboards (syncStack lf gf) (localExists lf) sel.2 s)
            cfg.customDashboards st1 with
        | (st2, some e) => (st2, some e)
        | (st2, none) =>
            runBindings
              (fun lf gf s =>
                syncDashboards (syncStack lf gf) (localExists lf) sel.1 s)
              cfg.commonDashboards st2
  else (st, none)

/-! ## Concrete fixtures used to instantiate the theorems -/

/-- A configuration with no tags, no root folder and no identifier suffix. -/
def cfgEmpty : PublisherConfig := ⟨[], [], [], "", "", none, "", ""⟩

/-- A configuration with `idSuffix = "-pr-1"` but an empty root folder. -/
def cfgSuffixOnly : PublisherConfig := ⟨[], [], [], "", "", none, "", "-pr-1"⟩

/-- A configuration with a root folder and `idSuffix = "-pr-1"`. -/
def cfgRootSuffix : PublisherConfig :=
  ⟨[], [], [], "", "", none, "root/folder", "-pr-1"⟩

/-- A datasource lookup that always fails. -/
def dsErr : String → Except String Datasource := fun _ => .error "lookup failed"

/-- An upload that always succeeds. -/
def uplOk : Dashboard → Option String := fun _ => none

/-- A document with uid `x` and the platform-incompatible `id`/`folderId`. -/
def docUidX : List (String × JValue) :=
  [("dashboard", .jobj [("uid", .jstr "x"), ("id", .jnum 5), ("folderId", .jnum 2)])]

/-- An inner dashboard object with only a title. -/
def dashTitle1 : List (String × JValue) := [("title", .jstr "T")]

/-- Another inner dashboard object with the same title and no uid. -/
def dashTitle2 : List (String × JValue) := [("n", .jnum 1), ("title", .jstr "T")]

/-- A 41-byte identifier, above the 40-character limit. -/
def uLong : String := "aaaaaaaaaaaaaaaaaaaaaaaaaaaaaaaaaaaaaaaaa"

/-- A document whose `dashboard` value is present but not an object. -/
def docBadDash : List (String × JValue) := [("dashboard", .jstr "oops")]

/-- A document whose `templating` object has no `list` key. -/
def docBadTempl : List (String × JValue) :=
  [("dashboard", .jobj [("uid", .jstr "u"), ("templating", .jobj [])])]

/-- A document whose `templating.list` holds a non-object entry. -/
def docBadParam : List (String × JValue) :=
  [("dashboard", .jobj [("uid", .jstr "u"),
    ("templating", .jobj [("list", .jarr [.jstr "p"])])])]

/-- A `.deleted` document whose `dashboard` value is not an object. -/
def docDeletedNum : List (String × JValue) := [("dashboard", .jnum 3)]

/-- A `.deleted` document referencing uid `gone`. -/
def docGone : List (String × JValue) :=
  [("dashboard", .jobj [("uid", .jstr "gone")])]

/-- An existence check that reports every dashboard as present. -/
def gdFound : String → Except String Unit := fun _ => .ok ()

/-- An existence check that reports every dashboard as absent. -/
def gdMissing : String → Except String Unit :=
  fun uid => .error ("failed to get dashboard " ++ uid)

/-- A delete that always succeeds. -/
def ddNone : String → Option String := fun _ => none

/-- Two stacks with distinct slugs `a` and `b`. -/
def stackA : Stack := ⟨0, 0, "", "", 1, "a", ""⟩

def stackB : Stack := ⟨0, 0, "", "", 2, "b", ""⟩

/-- An outcome oracle failing stack `a` on its first attempt only. -/
def outcomeAB : String → Nat → Option String :=
  fun s n => if s = "a" ∧ n = 0 then some "boom" else none

/-- A stack named `test-stack`. -/
def stackTest : Stack := ⟨0, 0, "", "", 1, "test-stack", ""⟩

/-- A stack named `custom-stack`. -/
def stackCustom : Stack := ⟨0, 0, "", "", 2, "custom-stack", ""⟩

/-- A stack named `excluded-stack`. -/
def stackExcluded : Stack := ⟨0, 0, "", "", 3, "excluded-stack", ""⟩

/-- A configuration excluding `excluded-stack`, with the usual test and
custom stack names. -/
def cfgSel : PublisherConfig :=
  ⟨["excluded-stack"], [], [], "custom-stack", "test-stack", none, "", ""⟩

/-- A configuration whose exclusion list holds the empty slug and whose
custom stack name matches nothing. -/
def cfgZeroExcl : PublisherConfig := ⟨[""], [], [], "c", "", none, "", ""⟩

/-- A datasource variable named `PROMPRO`. -/
def pProm : List (String × JValue) :=
  [("type", .jstr "datasource"), ("name", .jstr "PROMPRO")]

/-- A datasource variable named `LOGSPRO`. -/
def pLogs : List (String × JValue) :=
  [("type", .jstr "datasource"), ("name", .jstr "LOGSPRO")]

/-- A datasource variable named `LOGUSAGE`. -/
def pUsage : List (String × JValue) :=
  [("type", .jstr "datasource"), ("name", .jstr "LOGUSAGE")]

/-- The custom stack-identifier variable `STACKID`. -/
def pStackid : List (String × JValue) :=
  [("type", .jstr "custom"), ("name", .jstr "STACKID")]

/-- A datasource lookup returning a record whose `User` field is `123456`. -/
def dsOkUser : String → Except String Datasource :=
  fun n => .ok ⟨n, "123456"⟩

/-- A document whose templating list holds only the `STACKID` variable. -/
def docStackid : List (String × JValue) :=
  [("dashboard", .jobj [("uid", .jstr "u"),
    ("templating", .jobj [("list", .jarr [.jobj pStackid])])])]

/-! ## Association-list laws for the Go map operations -/

theorem jGet_nil (k : String) : jGet [] k = JValue.null := rfl

theorem jGet_cons (p : String × JValue) (rest : List (String × JValue))
    (k : String) :
    jGet (p :: rest) k = if p.1 = k then p.2 else jGet rest k := by
  by_cases h : p.1 = k <;> simp [jGet, List.find?_cons, h]

theorem jDel_cons (p : String × JValue) (rest : List (String × JValue))
    (k : String) :
    jDel (p :: rest) k = if p.1 = k then jDel rest k else p :: jDel rest k := by
  by_cases h : p.1 = k <;> simp [jDel, List.filter_cons, h]

theorem hasKey_cons (p : String × JValue) (rest : List (String × JValue))
    (k : String) :
    hasKey (p :: rest) k = (p.1 == k || hasKey rest k) := by
  simp [hasKey]

theorem jGet_jDel_ne (o : List (String × JValue)) {k k' : String} (h : k' ≠ k) :
    jGet (jDel o k) k' = jGet o k' := by
  induction o with
  | nil => rfl
  | cons p rest ih =>
      rw [jDel_cons, jGet_cons]
      by_cases hp : p.1 = k
      · rw [if_pos hp, ih, if_neg (fun hk' => h ((hp.symm.trans hk').symm))]
      · rw [if_neg hp, jGet_cons]
        by_cases hk' : p.1 = k'
        · rw [if_pos hk', if_pos hk']
        · rw [if_neg hk', if_neg hk', ih]

theorem jGet_jSet_self (o : List (String × JValue)) (k : String) (v : JValue) :
    jGet (jSet o k v) k = v := by
  rw [jSet, jGet_cons, if_pos rfl]

theorem jGet_jSet_ne (o : List (String × JValue)) (v : JValue) {k k' : String}
    (h : k' ≠ k) : jGet (jSet o k v) k' = jGet o k' := by
  rw [jSet, jGet_cons, if_neg (fun hk => h hk.symm), jGet_jDel_ne o h]

theorem hasKey_jDel_self (o : List (String × JValue)) (k : String) :
    hasKey (jDel o k) k = false := by
  induction o with
  | nil => rfl
  | cons p rest ih =>
      rw [jDel_cons]
      by_cases hp : p.1 = k
      · rw [if_pos hp]; exact ih
      · rw [if_neg hp, hasKey_cons, ih]
        simp [hp]

theorem hasKey_jDel_ne (o : List (String × JValue)) {k k' : String} (h : k' ≠ k) :
    hasKey (jDel o k) k' = hasKey o k' := by
  induction o with
  | nil => rfl
  | cons p rest ih =>
      rw [jDel_cons, hasKey_cons]
      by_cases hp : p.1 = k
      · rw [if_pos hp, ih]
        have hf : (p.1 == k') = false :=
          beq_eq_false_iff_ne.mpr (fun hk' => h ((hp.symm.trans hk').symm))
        rw [hf]
        simp
      · rw [if_neg hp, hasKey_cons, ih]

theorem hasKey_jSet_self (o : List (String × JValue)) (k : String) (v : JValue) :
    hasKey (jSet o k v) k = true := by
  rw [jSet, hasKey_cons]
  simp

theorem hasKey_jSet_ne (o : List (String × JValue)) (v : JValue) {k k' : String}
    (h : k' ≠ k) : hasKey (jSet o k v) k' = hasKey o k' := by
  rw [jSet, hasKey_cons, hasKey_jDel_ne o h]
  have hf : (k == k') = false := beq_eq_false_iff_ne.mpr (fun hk => h hk.symm)
  rw [hf]
  simp

/-! ## Length facts about `GenerateUniqueID` and `goLen` -/

theorem digestBytes_length (st : Hash8) : (digestBytes st).length = 32 := rfl

theorem sha256_length (m : List Nat) : (sha256 m).length = 32 :=
  digestBytes_length _

theorem hexDigit_mem (n : Nat) : hexDigit n ∈ hexDigits := by
  unfold hexDigit
  have h : n % 16 < 16 := Nat.mod_lt _ (by decide)
  generalize n % 16 = i at h
  interval_cases i <;> decide

theorem byteHex_mem {c : Char} {b : Nat} (h : c ∈ byteHex b) : c ∈ hexDigits := by
  simp only [byteHex, List.mem_cons, List.mem_singleton] at h
  rcases h with h | h | h
  · exact h ▸ hexDigit_mem _
  · exact h ▸ hexDigit_mem _
  · exact absurd h (by simp)

theorem encodeChar_of_hexDigit {c : Char} (h : c ∈ hexDigits) :
    encodeChar c = [c.toNat] := by
  have hlt : c.toNat < 128 := by
    have hall : hexDigits.all (fun d => decide (d.toNat < 128)) = true := by decide
    simpa using List.all_eq_true.mp hall c h
  unfold encodeChar
  rw [if_pos hlt]

theorem strBytes_length_of_hexchars (l : List Char)
    (h : ∀ c ∈ l, c ∈ hexDigits) : (strBytes ⟨l⟩).length = l.length := by
  induction l with
  | nil => rfl
  | cons c rest ih =>
      have hc := encodeChar_of_hexDigit (h c (by simp))
      have hr := ih (fun d hd => h d (by simp [hd]))
      simp only [strBytes, List.map_cons, List.flatten_cons, List.length_append, hc,
        List.length_cons, List.length_nil] at *
      omega

theorem GenerateUniqueID_chars (s : String) :
    ∀ c ∈ (GenerateUniqueID s).data, c ∈ hexDigits := by
  intro c hc
  simp only [GenerateUniqueID] at hc
  have hc2 := List.take_subset 40 _ hc
  rcases List.mem_flatten.mp hc2 with ⟨sub, hsub, hcs⟩
  rcases List.mem_map.mp hsub with ⟨b, _, rfl⟩
  exact byteHex_mem hcs

theorem GenerateUniqueID_hex_length (s : String) :
    ((((sha256 (strBytes s)).map byteHex).flatten)).length = 64 := by
  rw [List.length_flatten, List.map_map]
  have : ((sha256 (strBytes s)).map (List.length ∘ byteHex)) =
      (sha256 (strBytes s)).map (fun _ => 2) := by
    apply List.map_congr_left
    intro b _
    rfl
  rw [this, List.map_const', List.sum_replicate, sha256_length]
  decide

theorem GenerateUniqueID_length (s : String) : (GenerateUniqueID s).length = 40 := by
  show ((((sha256 (strBytes s)).map byteHex).flatten).take 40).length = 40
  rw [List.length_take, GenerateUniqueID_hex_length]
  decide

theorem goLen_GenerateUniqueID (s : String) : goLen (GenerateUniqueID s) = 40 := by
  have h := strBytes_length_of_hexchars (GenerateUniqueID s).data
    (GenerateUniqueID_chars s)
  unfold goLen
  calc (strBytes (GenerateUniqueID s)).length
      = (GenerateUniqueID s).data.length := h
    _ = (GenerateUniqueID s).length := rfl
    _ = 40 := GenerateUniqueID_length s

theorem one_le_encodeChar_length (c : Char) : 1 ≤ (encodeChar c).length := by
  unfold encodeChar
  split_ifs <;> simp

theorem length_le_goLen (s : String) : s.length ≤ goLen s := by
  show s.data.length ≤ (strBytes s).length
  unfold strBytes
  induction s.data with
  | nil => simp
  | cons c rest ih =>
      have := one_le_encodeChar_length c
      simp only [List.map_cons, List.flatten_cons, List.length_append,
        List.length_cons]
      omega

/-! ## Transformer invariants -/

theorem finishUID_goLen_le (cfg : PublisherConfig) (u : String) :
    goLen (resolveUID.finishUID cfg u) ≤ 40 := by
  unfold resolveUID.finishUID
  by_cases h : goLen (if cfg.rootFolder ≠ "" then u ++ cfg.idSuffix else u) > 40
  · simp only [h, if_true, goLen_GenerateUniqueID]
    omega
  · simp only [h, if_false]
    omega

theorem resolveUID_ok_goLen {cfg : PublisherConfig}
    {dash : List (String × JValue)} {uid : String}
    (hok : resolveUID cfg dash = .ok uid) : goLen uid ≤ 40 := by
  unfold resolveUID at hok
  cases h1 : asString (jGet dash "uid") with
  | some u =>
      rw [h1] at hok
      cases hok
      exact finishUID_goLen_le cfg u
  | none =>
      rw [h1] at hok
      cases h2 : asString (jGet dash "title") with
      | some t =>
          rw [h2] at hok
          cases hok
          exact finishUID_goLen_le cfg _
      | none =>
          rw [h2] at hok
          cases hok

theorem appendTags_hasKey_ne (cfg : PublisherConfig)
    (o : List (String × JValue)) {k : String} (h : k ≠ "tags") :
    hasKey (appendTags cfg o) k = hasKey o k := by
  cases htags : cfg.tags <;>
    simp [appendTags, htags, hasKey_jSet_ne _ _ h]

theorem appendTags_jGet_ne (cfg : PublisherConfig)
    (o : List (String × JValue)) {k : String} (h : k ≠ "tags") :
    jGet (appendTags cfg o) k = jGet o k := by
  cases htags : cfg.tags <;>
    simp [appendTags, htags, jGet_jSet_ne _ _ h]

theorem transformCore_inv {cfg : PublisherConfig} {fid : String}
    {dash2 : List (String × JValue)} {d : Dashboard}
    (hok : transformCore cfg fid dash2 = .ok d) :
    d.folderUID = fid ∧
    hasKey d.dashboard "id" = false ∧
    hasKey d.dashboard "folderId" = hasKey dash2 "folderId" ∧
    jGet d.dashboard "folderUid" = jGet dash2 "folderUid" ∧
    jGet d.dashboard "uid" = .jstr d.uid ∧
    goLen d.uid ≤ 40 := by
  unfold transformCore at hok
  dsimp only at hok
  cases hres : resolveUID cfg (jDel dash2 "id") with
  | error e => rw [hres] at hok; cases hok
  | ok uid =>
      rw [hres] at hok
      cases hok
      refine ⟨rfl, ?_, ?_, ?_, ?_, resolveUID_ok_goLen hres⟩
      · rw [appendTags_hasKey_ne cfg _ (by decide),
          hasKey_jSet_ne _ _ (by decide), hasKey_jDel_self]
      · rw [appendTags_hasKey_ne cfg _ (by decide),
          hasKey_jSet_ne _ _ (by decide), hasKey_jDel_ne _ (by decide)]
      · rw [appendTags_jGet_ne cfg _ (by decide),
          jGet_jSet_ne _ _ (by decide), jGet_jDel_ne _ (by decide)]
      · rw [appendTags_jGet_ne cfg _ (by decide), jGet_jSet_self]

theorem rewriteTemplating_inv {slug : String}
    {getDS : String → Except String Datasource}
    {dash1 dash2 : List (String × JValue)}
    (hok : rewriteTemplating slug getDS dash1 = .ok dash2) :
    hasKey dash2 "folderId" = hasKey dash1 "folderId" ∧
    jGet dash2 "folderUid" = jGet dash1 "folderUid" := by
  unfold rewriteTemplating at hok
  split at hok
  · cases hok
    exact ⟨rfl, rfl⟩
  · split at hok
    · split at hok
      · cases hok
      · cases hok
        exact ⟨hasKey_jSet_ne _ _ (by decide), jGet_jSet_ne _ _ (by decide)⟩
    · cases hok
  · cases hok

theorem transformDashboard_inv {cfg : PublisherConfig} {slug fid : String}
    {getDS : String → Except String Datasource}
    {doc : List (String × JValue)} {d : Dashboard}
    (hok : transformDashboard cfg slug fid getDS doc = .ok d) :
    d.folderUID = fid ∧
    hasKey d.dashboard "id" = false ∧
    hasKey d.dashboard "folderId" = false ∧
    jGet d.dashboard "folderUid" = .jstr fid ∧
    jGet d.dashboard "uid" = .jstr d.uid ∧
    goLen d.uid ≤ 40 := by
  unfold transformDashboard at hok
  dsimp only at hok
  split at hok
  · cases hok
  · rename_i dash0 hdv
    split at hok
    · cases hok
    · rename_i dash2 hrt
      obtain ⟨h1, h2, h3, h4, h5, h6⟩ := transformCore_inv hok
      obtain ⟨hk, hg⟩ := rewriteTemplating_inv hrt
      refine ⟨h1, h2, ?_, ?_, h5, h6⟩
      · rw [h3, hk, hasKey_jSet_ne _ _ (by decide), hasKey_jDel_self]
      · rw [h4, hg, jGet_jSet_self]
  · cases hok

/-! ## Claim theorems -/

/-- Claim C1: for every local `.json` dashboard file successfully processed
by `syncDashboardsForStack`, the document passed to `UploadDashboard`
contains no `id` key and no `folderId` key in its inner dashboard object,
contains a `folderUid` key equal to the UID of the folder resolved for the
binding, and contains a `uid` string of length at most 40 characters. -/
theorem C1_upload_invariants (cfg : PublisherConfig) (slug fid : String)
    (getDS : String → Except String Datasource) (upl : Dashboard → Option String)
    (doc : List (String × JValue)) (acts : List StackCall)
    (hok : processJsonFile cfg slug fid getDS upl doc = .ok acts) :
    ∃ d, acts = [StackCall.upload d] ∧
      transformDashboard cfg slug fid getDS doc = .ok d ∧
      d.folderUID = fid ∧
      hasKey d.dashboard "id" = false ∧
      hasKey d.dashboard "folderId" = false ∧
      jGet d.dashboard "folderUid" = .jstr fid ∧
      jGet d.dashboard "uid" = .jstr d.uid ∧
      goLen d.uid ≤ 40 ∧ d.uid.length ≤ 40 := by
  unfold processJsonFile at hok
  split at hok
  · cases hok
  · rename_i d htr
    split at hok
    · cases hok
      obtain ⟨h1, h2, h3, h4, h5, h6⟩ := transformDashboard_inv htr
      exact ⟨d, rfl, htr, h1, h2, h3, h4, h5, h6,
        le_trans (length_le_goLen d.uid) h6⟩
    · cases hok

/-- Witness for C1 at a concrete document carrying `uid`, `id` and
`folderId`. -/
theorem C1_upload_invariants_witness :
    processJsonFile cfgEmpty "s" "fuid" dsErr uplOk docUidX =
      .ok [StackCall.upload ⟨"fuid", "x",
        [("uid", .jstr "x"), ("folderUid", .jstr "fuid")]⟩] ∧
    ∃ d, [StackCall.upload (⟨"fuid", "x",
        [("uid", JValue.jstr "x"), ("folderUid", JValue.jstr "fuid")]⟩ :
          Dashboard)] = [StackCall.upload d] ∧
      transformDashboard cfgEmpty "s" "fuid" dsErr docUidX = .ok d ∧
      d.folderUID = "fuid" ∧
      hasKey d.dashboard "id" = false ∧
      hasKey d.dashboard "folderId" = false ∧
      jGet d.dashboard "folderUid" = .jstr "fuid" ∧
      jGet d.dashboard "uid" = .jstr d.uid ∧
      goLen d.uid ≤ 40 ∧ d.uid.length ≤ 40 :=
  ⟨rfl, C1_upload_invariants cfgEmpty "s" "fuid" dsErr uplOk docUidX _ rfl⟩

/-- Claim C2: identifier derivation is a deterministic pure function — two
documents with identical title and no uid derive equal identifiers, the
derivation of a given document is a fixed function of its inputs, an
identifier longer than 40 bytes after suffixing is replaced by the hash of
the over-length string, and `GenerateUniqueID` returns exactly 40
characters (40 bytes) for every input. -/
theorem C2_identifier_derivation (cfg : PublisherConfig)
    (d1 d2 : List (String × JValue)) (t u : String)
    (h1 : asString (jGet d1 "uid") = none)
    (h2 : asString (jGet d2 "uid") = none)
    (ht1 : jGet d1 "title" = .jstr t)
    (ht2 : jGet d2 "title" = .jstr t)
    (hlong : goLen (if cfg.rootFolder ≠ "" then u ++ cfg.idSuffix else u) > 40) :
    resolveUID cfg d1 = resolveUID cfg d2 ∧
    resolveUID cfg d1 = .ok (resolveUID.finishUID cfg (GenerateUniqueID t)) ∧
    resolveUID.finishUID cfg u =
      GenerateUniqueID (if cfg.rootFolder ≠ "" then u ++ cfg.idSuffix else u) ∧
    (∀ s, (GenerateUniqueID s).length = 40 ∧ goLen (GenerateUniqueID s) = 40) := by
  refine ⟨?_, ?_, ?_, fun s => ⟨GenerateUniqueID_length s, goLen_GenerateUniqueID s⟩⟩
  · unfold resolveUID
    rw [h1, h2, ht1, ht2]
  · unfold resolveUID
    rw [h1, ht1]
    rfl
  · unfold resolveUID.finishUID
    simp only [hlong, if_true]

/-- Witness for C2 at two concrete documents titled `T` with no uid and a
41-byte identifier. -/
theorem C2_identifier_derivation_witness :
    asString (jGet dashTitle1 "uid") = none ∧
    asString (jGet dashTitle2 "uid") = none ∧
    jGet dashTitle1 "title" = .jstr "T" ∧
    jGet dashTitle2 "title" = .jstr "T" ∧
    goLen (if cfgEmpty.rootFolder ≠ "" then uLong ++ cfgEmpty.idSuffix
           else uLong) > 40 ∧
    (resolveUID cfgEmpty dashTitle1 = resolveUID cfgEmpty dashTitle2 ∧
     resolveUID cfgEmpty dashTitle1 =
       .ok (resolveUID.finishUID cfgEmpty (GenerateUniqueID "T")) ∧
     resolveUID.finishUID cfgEmpty uLong =
       GenerateUniqueID (if cfgEmpty.rootFolder ≠ "" then
         uLong ++ cfgEmpty.idSuffix else uLong) ∧
     (∀ s, (GenerateUniqueID s).length = 40 ∧ goLen (GenerateUniqueID s) = 40)) :=
  ⟨rfl, rfl, rfl, rfl, by decide,
   C2_identifier_derivation cfgEmpty dashTitle1 dashTitle2 "T" uLong
     rfl rfl rfl rfl (by decide)⟩

/-- Counterexample to claim C3 as stated: with `idSuffix = "-pr-1"`
configured but no root folder, a dashboard with uid `x` is uploaded with
identifier `x`, not `x-pr-1` — the suffix is ignored. -/
theorem C3_idSuffix_counterexample :
    cfgSuffixOnly.idSuffix = "-pr-1" ∧
    cfgSuffixOnly.tags = none ∧
    (transformDashboard cfgSuffixOnly "s" "f" dsErr docUidX).map
      (fun d => d.uid) = .ok "x" ∧
    "x" ≠ "x-pr-1" :=
  ⟨rfl, rfl, rfl, by decide⟩

/-- Claim C3 (amended): the configured `idSuffix` is appended to the
resolved uid only when a root folder is also configured; in that case a
dashboard with uid `x` and `idSuffix = "-pr-1"` is uploaded as `x-pr-1`. -/
theorem C3_idSuffix_amended (cfg : PublisherConfig) (slug fid : String)
    (getDS : String → Except String Datasource)
    (doc dash0 : List (String × JValue)) (u : String)
    (hdoc : jGet doc "dashboard" = .jobj dash0)
    (huid : jGet dash0 "uid" = .jstr u)
    (htmp : jGet dash0 "templating" = .null)
    (hroot : cfg.rootFolder ≠ "")
    (hlen : goLen (u ++ cfg.idSuffix) ≤ 40) :
    (transformDashboard cfg slug fid getDS doc).map (fun d => d.uid) =
      .ok (u ++ cfg.idSuffix) := by
  have e1 : jGet (jSet (jDel dash0 "folderId") "folderUid" (.jstr fid))
      "templating" = .null := by
    rw [jGet_jSet_ne _ _ (by decide), jGet_jDel_ne _ (by decide), htmp]
  have e2 : jGet (jDel (jSet (jDel dash0 "folderId") "folderUid" (.jstr fid))
      "id") "uid" = .jstr u := by
    rw [jGet_jDel_ne _ (by decide), jGet_jSet_ne _ _ (by decide),
      jGet_jDel_ne _ (by decide), huid]
  have e3 : ¬ goLen (u ++ cfg.idSuffix) > 40 := by omega
  unfold transformDashboard rewriteTemplating transformCore resolveUID
  rw [hdoc]
  dsimp only
  rw [e1]
  dsimp only
  rw [e2]
  dsimp only [asString]
  unfold resolveUID.finishUID
  simp only [hroot, ne_eq, not_false_eq_true, if_true, e3, if_false]
  rfl

/-- Witness for the amended C3: `uid = "x"`, `idSuffix = "-pr-1"` and a
non-empty root folder yield uploaded identifier `x-pr-1`. -/
theorem C3_idSuffix_amended_witness :
    jGet docUidX "dashboard" =
      .jobj [("uid", .jstr "x"), ("id", .jnum 5), ("folderId", .jnum 2)] ∧
    jGet [("uid", JValue.jstr "x"), ("id", JValue.jnum 5),
      ("folderId", JValue.jnum 2)] "uid" = .jstr "x" ∧
    jGet [("uid", JValue.jstr "x"), ("id", JValue.jnum 5),
      ("folderId", JValue.jnum 2)] "templating" = .null ∧
    cfgRootSuffix.rootFolder ≠ "" ∧
    goLen ("x" ++ cfgRootSuffix.idSuffix) ≤ 40 ∧
    (transformDashboard cfgRootSuffix "s" "f" dsErr docUidX).map
      (fun d => d.uid) = .ok ("x" ++ cfgRootSuffix.idSuffix) :=
  ⟨rfl, rfl, rfl, by decide, by decide,
   C3_idSuffix_amended cfgRootSuffix "s" "f" dsErr docUidX _ "x"
     rfl rfl rfl (by decide) (by decide)⟩

/-- Claim C10: the per-file transformation is not total over arbitrary JSON
shapes — a non-object `dashboard` value, a `templating` object without a
`list` array, and a non-object templating entry each reach an unchecked
type assertion (a Go panic), not a malformed-document error; likewise for
the `.deleted` branch. -/
theorem C10_unchecked_assertions :
    transformDashboard cfgEmpty "s" "f" dsErr docBadDash =
      .error (.typeAssertPanic "dashboard is not an object") ∧
    transformDashboard cfgEmpty "s" "f" dsErr docBadTempl =
      .error (.typeAssertPanic "templating list is not an array of values") ∧
    transformDashboard cfgEmpty "s" "f" dsErr docBadParam =
      .error (.typeAssertPanic "templating list entry is not an object") ∧
    processDeletedFile gdMissing ddNone docDeletedNum =
      .error (.typeAssertPanic "dashboard is not an object") :=
  ⟨rfl, rfl, rfl, rfl⟩

/-- Helper: `stackByName` returns a member of the list or the zero value. -/
theorem stackByName_cases (sts : List Stack) (name : String) :
    stackByName sts name ∈ sts ∨ stackByName sts name = zeroStack := by
  unfold stackByName
  cases h : sts.find? (fun s => s.slug == name) with
  | some s => exact Or.inl (List.mem_of_find?_eq_some h)
  | none => exact Or.inr rfl

/-- Claim C5: for a `.deleted` file whose document holds a dashboard object
with a string uid, the walk dispatches to the delete branch; when the
existence check fails (dashboard absent) no delete call is issued and the
file succeeds; when it succeeds the dashboard is deleted. -/
theorem C5_deleted_absent (cfg : PublisherConfig) (slug fid : String)
    (getDS : String → Except String Datasource) (upl : Dashboard → Option String)
    (gd : String → Except String Unit) (dd : String → Option String)
    (doc dash : List (String × JValue)) (u : String)
    (hdoc : jGet doc "dashboard" = .jobj dash)
    (huid : jGet dash "uid" = .jstr u) :
    processFile cfg slug fid getDS upl gd dd ".deleted" doc =
      processDeletedFile gd dd doc ∧
    (∀ e, gd u = .error e → processDeletedFile gd dd doc = .ok []) ∧
    (gd u = .ok () → dd u = none →
      processDeletedFile gd dd doc = .ok [.deleteDash u]) := by
  refine ⟨by simp [processFile], ?_, ?_⟩
  · intro e he
    unfold processDeletedFile
    rw [hdoc]
    dsimp only
    rw [huid]
    dsimp only [asString]
    rw [he]
  · intro hok hdd
    unfold processDeletedFile
    rw [hdoc]
    dsimp only
    rw [huid]
    dsimp only [asString]
    rw [hok, hdd]

/-- Witness for C5 at a `.deleted` file with uid `gone` that the stack
reports absent, and at one it reports present. -/
theorem C5_deleted_absent_witness :
    jGet docGone "dashboard" = .jobj [("uid", .jstr "gone")] ∧
    jGet [("uid", JValue.jstr "gone")] "uid" = .jstr "gone" ∧
    (processFile cfgEmpty "s" "f" dsErr uplOk gdMissing ddNone ".deleted" docGone =
      processDeletedFile gdMissing ddNone docGone ∧
     (∀ e, gdMissing "gone" = .error e →
        processDeletedFile gdMissing ddNone docGone = .ok []) ∧
     (gdMissing "gone" = .ok () → ddNone "gone" = none →
        processDeletedFile gdMissing ddNone docGone = .ok [.deleteDash "gone"])) ∧
    processDeletedFile gdMissing ddNone docGone = .ok [] ∧
    processDeletedFile gdFound ddNone docGone = .ok [.deleteDash "gone"] :=
  ⟨rfl, rfl,
   C5_deleted_absent cfgEmpty "s" "f" dsErr uplOk gdMissing ddNone
     docGone _ "gone" rfl rfl,
   rfl, rfl⟩

/-- Counterexample to claim C6 as stated: the zero-valued stack, when
enumerated and excluded (its slug is the empty string), still appears in
the custom-dashboard target set, because the not-found placeholder
`grafana.Stack{}` is that very stack value. -/
theorem C6_exclusion_counterexample :
    zeroStack ∈ [zeroStack] ∧
    initExclusionsMap cfgZeroExcl.exclusions zeroStack.slug = true ∧
    zeroStack ∈ (selectStacks cfgZeroExcl true [zeroStack]).2 := by
  decide

/-- Claim C6 (amended): in all-stacks mode an excluded stack is absent from
the shared-dashboard target set, and absent from the custom-dashboard
target set unless it is itself the zero-value placeholder stack. -/
theorem C6_exclusion_amended (cfg : PublisherConfig) (all : List Stack)
    (S : Stack) (_hS : S ∈ all)
    (hex : initExclusionsMap cfg.exclusions S.slug = true) :
    S ∉ (selectStacks cfg true all).1 ∧
    (S ≠ zeroStack → S ∉ (selectStacks cfg true all).2) := by
  constructor
  · intro hmem
    simp only [selectStacks, if_true] at hmem
    rw [List.mem_filter] at hmem
    rw [hex] at hmem
    simp at hmem
  · intro hnz hmem
    simp only [selectStacks, if_true, List.mem_singleton] at hmem
    rcases stackByName_cases
        (all.filter fun s => !(initExclusionsMap cfg.exclusions s.slug))
        cfg.customStack with hin | hzero
    · rw [← hmem] at hin
      rw [List.mem_filter] at hin
      rw [hex] at hin
      simp at hin
    · exact hnz (hmem.trans hzero)

/-- Witness for the amended C6 at a concrete excluded stack. -/
theorem C6_exclusion_amended_witness :
    stackExcluded ∈ [stackTest, stackCustom, stackExcluded] ∧
    initExclusionsMap cfgSel.exclusions stackExcluded.slug = true ∧
    (stackExcluded ∉
        (selectStacks cfgSel true [stackTest, stackCustom, stackExcluded]).1 ∧
     (stackExcluded ≠ zeroStack →
        stackExcluded ∉
          (selectStacks cfgSel true [stackTest, stackCustom, stackExcluded]).2)) :=
  ⟨by decide, by decide,
   C6_exclusion_amended cfgSel [stackTest, stackCustom, stackExcluded]
     stackExcluded (by decide) (by decide)⟩

/-- Claim C7: in single-stack (test) mode, both target sets are exactly the
singleton of the stack found by the configured test-stack name among the
non-excluded candidates; a name matching no candidate yields the
zero-value placeholder stack. -/
theorem C7_single_stack_mode (cfg : PublisherConfig) (all : List Stack) :
    selectStacks cfg false all =
      ([stackByName (all.filter fun s =>
          !(initExclusionsMap cfg.exclusions s.slug)) cfg.testStack],
       [stackByName (all.filter fun s =>
          !(initExclusionsMap cfg.exclusions s.slug)) cfg.testStack]) ∧
    ((∃ s ∈ all.filter (fun s => !(initExclusionsMap cfg.exclusions s.slug)),
        s.slug = cfg.testStack) →
      stackByName (all.filter fun s =>
          !(initExclusionsMap cfg.exclusions s.slug)) cfg.testStack ∈
        all.filter (fun s => !(initExclusionsMap cfg.exclusions s.slug)) ∧
      (stackByName (all.filter fun s =>
          !(initExclusionsMap cfg.exclusions s.slug)) cfg.testStack).slug =
        cfg.testStack) ∧
    ((∀ s ∈ all.filter (fun s => !(initExclusionsMap cfg.exclusions s.slug)),
        s.slug ≠ cfg.testStack) →
      stackByName (all.filter fun s =>
          !(initExclusionsMap cfg.exclusions s.slug)) cfg.testStack =
        zeroStack) := by
  refine ⟨by simp [selectStacks], ?_, ?_⟩
  · intro hex
    have hsome : ((all.filter fun s =>
        !(initExclusionsMap cfg.exclusions s.slug)).find?
          (fun s => s.slug == cfg.testStack)).isSome := by
      rw [List.find?_isSome]
      rcases hex with ⟨s, hs, hslug⟩
      exact ⟨s, hs, by simp [hslug]⟩
    unfold stackByName
    cases h : (all.filter fun s =>
        !(initExclusionsMap cfg.exclusions s.slug)).find?
          (fun s => s.slug == cfg.testStack) with
    | some s =>
        have hp := List.find?_some h
        have hm := List.mem_of_find?_eq_some h
        exact ⟨hm, by simpa using hp⟩
    | none => rw [h] at hsome; cases hsome
  · intro hall
    unfold stackByName
    have h : (all.filter fun s =>
        !(initExclusionsMap cfg.exclusions s.slug)).find?
          (fun s => s.slug == cfg.testStack) = none := by
      rw [List.find?_eq_none]
      intro s hs
      simpa using hall s hs
    rw [h]

/-- Witness for C7 at a concrete configuration and stack list. -/
theorem C7_single_stack_mode_witness :
    selectStacks cfgSel false [stackTest, stackCustom, stackExcluded] =
      ([stackByName ([stackTest, stackCustom, stackExcluded].filter fun s =>
          !(initExclusionsMap cfgSel.exclusions s.slug)) cfgSel.testStack],
       [stackByName ([stackTest, stackCustom, stackExcluded].filter fun s =>
          !(initExclusionsMap cfgSel.exclusions s.slug)) cfgSel.testStack]) ∧
    ((∃ s ∈ [stackTest, stackCustom, stackExcluded].filter
        (fun s => !(initExclusionsMap cfgSel.exclusions s.slug)),
        s.slug = cfgSel.testStack) →
      stackByName ([stackTest, stackCustom, stackExcluded].filter fun s =>
          !(initExclusionsMap cfgSel.exclusions s.slug)) cfgSel.testStack ∈
        [stackTest, stackCustom, stackExcluded].filter
          (fun s => !(initExclusionsMap cfgSel.exclusions s.slug)) ∧
      (stackByName ([stackTest, stackCustom, stackExcluded].filter fun s =>
          !(initExclusionsMap cfgSel.exclusions s.slug)) cfgSel.testStack).slug =
        cfgSel.testStack) ∧
    ((∀ s ∈ [stackTest, stackCustom, stackExcluded].filter
        (fun s => !(initExclusionsMap cfgSel.exclusions s.slug)),
        s.slug ≠ cfgSel.testStack) →
      stackByName ([stackTest, stackCustom, stackExcluded].filter fun s =>
          !(initExclusionsMap cfgSel.exclusions s.slug)) cfgSel.testStack =
        zeroStack) :=
  C7_single_stack_mode cfgSel [stackTest, stackCustom, stackExcluded]

/-- Claim C9: with the credential environment variable absent, `Publish`
performs no remote work and returns nil — the run is a deliberate no-op,
whatever the configuration, mode and remote world. -/
theorem C9_missing_token_noop {σ : Type} (cfg : PublisherConfig)
    (syncAllStacks : Bool)
    (listStacks : σ → σ × Except String (List Stack))
    (syncStack : String → String → Stack → σ → σ × Option String)
    (localExists : String → Bool) (st : σ) :
    publishModel cfg false syncAllStacks listStacks syncStack localExists st =
      (st, none) := by
  simp [publishModel]

/-! ## Templating-rewrite helpers -/

theorem isStr_eq_true_iff (v : JValue) (s : String) :
    isStr v s = true ↔ v = .jstr s := by
  cases v <;> simp [isStr]

theorem dsRewrite_jGet_ne (slug : String) (p : List (String × JValue))
    {k : String} (h : k ≠ "current") :
    jGet (dsRewrite slug p) k = jGet p k := by
  unfold dsRewrite
  split_ifs <;> first | rfl | rw [jGet_jSet_ne _ _ h]

theorem dsRewrite_of_not_ds (slug : String) (p : List (String × JValue))
    (h : isStr (jGet p "type") "datasource" = false) : dsRewrite slug p = p := by
  unfold dsRewrite
  rw [h]
  simp

theorem rewriteParam_ok_of_not_stackid (slug : String)
    (getDS : String → Except String Datasource) (p : List (String × JValue))
    (hns : isStr (jGet p "type") "custom" = false ∨
           isStr (jGet p "name") "STACKID" = false) :
    ∃ q, rewriteParam slug getDS p = .ok q := by
  unfold rewriteParam
  dsimp only
  by_cases hc : isStr (jGet (dsRewrite slug p) "type") "custom" = true
  · by_cases hn : isStr (jGet (dsRewrite slug p) "name") "STACKID" = true
    · exfalso
      rw [dsRewrite_jGet_ne slug p (by decide)] at hc
      rw [dsRewrite_jGet_ne slug p (by decide)] at hn
      rcases hns with hf | hf
      · rw [hc] at hf; cases hf
      · rw [hn] at hf; cases hf
    · rw [Bool.not_eq_true] at hn
      rw [hc, hn]
      exact ⟨_, rfl⟩
  · rw [Bool.not_eq_true] at hc
    rw [hc]
    exact ⟨_, rfl⟩

theorem rewriteParam_stackid_error (slug : String)
    (getDS : String → Except String Datasource) (p : List (String × JValue))
    (ht : isStr (jGet p "type") "custom" = true)
    (hn : isStr (jGet p "name") "STACKID" = true) (e : String)
    (hds : getDS ("grafanacloud-" ++ slug ++ "-logs") = .error e) :
    rewriteParam slug getDS p = .error (.fail e) := by
  have htv := (isStr_eq_true_iff _ _).mp ht
  have hp1 : dsRewrite slug p = p :=
    dsRewrite_of_not_ds slug p (by rw [htv]; rfl)
  unfold rewriteParam
  dsimp only
  rw [hp1, ht, hn, hds]
  rfl

theorem rewriteParam_stackid_ok (slug : String)
    (getDS : String → Except String Datasource) (p : List (String × JValue))
    (ht : isStr (jGet p "type") "custom" = true)
    (hn : isStr (jGet p "name") "STACKID" = true) (ds : Datasource)
    (hds : getDS ("grafanacloud-" ++ slug ++ "-logs") = .ok ds) :
    rewriteParam slug getDS p =
      .ok (jSet (jSet (jSet p "current" (selCurrent ds.user ds.user))
            "options"
            (.jarr [.jobj [("selected", .jbool true), ("text", .jstr ds.user),
                           ("value", .jstr ds.user)]]))
          "query" (.jstr ds.user)) := by
  have htv := (isStr_eq_true_iff _ _).mp ht
  have hp1 : dsRewrite slug p = p :=
    dsRewrite_of_not_ds slug p (by rw [htv]; rfl)
  unfold rewriteParam
  dsimp only
  rw [hp1, ht, hn, hds]
  rfl

theorem rewriteParam_ds (slug : String)
    (getDS : String → Except String Datasource) (p : List (String × JValue))
    (hds : isStr (jGet p "type") "datasource" = true)
    (cur : JValue) (hcur : dsRewrite slug p = jSet p "current" cur) :
    rewriteParam slug getDS p = .ok (jSet p "current" cur) := by
  have htv := (isStr_eq_true_iff _ _).mp hds
  have hc : isStr (jGet (dsRewrite slug p) "type") "custom" = false := by
    rw [dsRewrite_jGet_ne slug p (by decide), htv]
    rfl
  unfold rewriteParam
  dsimp only
  rw [hc, hcur]
  rfl

theorem rewriteParams_error (slug : String)
    (getDS : String → Except String Datasource) (e : String)
    (hds : getDS ("grafanacloud-" ++ slug ++ "-logs") = .error e) :
    ∀ params : List JValue,
      (∀ v ∈ params, ∃ q, v = JValue.jobj q) →
      (∃ q, JValue.jobj q ∈ params ∧ isStr (jGet q "type") "custom" = true ∧
        isStr (jGet q "name") "STACKID" = true) →
      rewriteParams slug getDS params = .error (.fail e) := by
  intro params
  induction params with
  | nil =>
      intro _ hstack
      rcases hstack with ⟨q, hq, _, _⟩
      cases hq
  | cons v rest ih =>
      intro hobj hstack
      rcases hobj v (by simp) with ⟨q0, rfl⟩
      by_cases hc : isStr (jGet q0 "type") "custom" = true ∧
          isStr (jGet q0 "name") "STACKID" = true
      · have herr := rewriteParam_stackid_error slug getDS q0 hc.1 hc.2 e hds
        unfold rewriteParams
        dsimp only
        rw [herr]
      · rcases rewriteParam_ok_of_not_stackid slug getDS q0 (by
            rcases Decidable.not_and_iff_or_not.mp hc with hf | hf
            · exact Or.inl (by rw [Bool.not_eq_true] at hf; exact hf)
            · exact Or.inr (by rw [Bool.not_eq_true] at hf; exact hf)) with ⟨q1, hq1⟩
        have hrest : rewriteParams slug getDS rest = .error (.fail e) := by
          apply ih (fun w hw => hobj w (by simp [hw]))
          rcases hstack with ⟨q, hq, hqt, hqn⟩
          rcases List.mem_cons.mp hq with heq | hmem
          · exfalso
            have hq0 : q = q0 := by
              cases heq
              rfl
            exact hc ⟨hq0 ▸ hqt, hq0 ▸ hqn⟩
          · exact ⟨q, hmem, hqt, hqn⟩
        unfold rewriteParams
        dsimp only
        rw [hq1, hrest]

/-- Claim C8: templating rewrites follow the fixed table — `PROMPRO` and
`P1EUW1` select the stack prom datasource, `LOGSPRO` the stack logs
datasource, `LOGUSAGE` the usage-insights display text with the fixed
constant value; the custom `STACKID` variable gets the logs datasource
owner written to its current selection, single option and query, and a
lookup failure fails the document. -/
theorem C8_datasource_table (slug : String)
    (getDS : String → Except String Datasource) (p : List (String × JValue)) :
    (isStr (jGet p "type") "datasource" = true →
      ((isStr (jGet p "name") "PROMPRO" = true ∨
        isStr (jGet p "name") "P1EUW1" = true) →
        rewriteParam slug getDS p =
          .ok (jSet p "current"
            (selCurrent ("grafanacloud-" ++ slug ++ "-prom")
                        ("grafanacloud-" ++ slug ++ "-prom")))) ∧
      (isStr (jGet p "name") "LOGSPRO" = true →
        rewriteParam slug getDS p =
          .ok (jSet p "current"
            (selCurrent ("grafanacloud-" ++ slug ++ "-logs")
                        ("grafanacloud-" ++ slug ++ "-logs")))) ∧
      (isStr (jGet p "name") "LOGUSAGE" = true →
        rewriteParam slug getDS p =
          .ok (jSet p "current"
            (selCurrent ("grafanacloud-" ++ slug ++ "-usage-insights")
                        "grafanacloud-usage-insights")))) ∧
    (isStr (jGet p "type") "custom" = true →
     isStr (jGet p "name") "STACKID" = true →
      ((∀ ds, getDS ("grafanacloud-" ++ slug ++ "-logs") = .ok ds →
          rewriteParam slug getDS p =
            .ok (jSet (jSet (jSet p "current" (selCurrent ds.user ds.user))
                  "options"
                  (.jarr [.jobj [("selected", .jbool true),
                    ("text", .jstr ds.user), ("value", .jstr ds.user)]]))
                "query" (.jstr ds.user))) ∧
       (∀ e, getDS ("grafanacloud-" ++ slug ++ "-logs") = .error e →
          rewriteParam slug getDS p = .error (.fail e)))) ∧
    (∀ (cfg : PublisherConfig) (fid : String)
        (doc dash t : List (String × JValue)) (params : List JValue) (e : String),
      jGet doc "dashboard" = .jobj dash →
      jGet dash "templating" = .jobj t →
      jGet t "list" = .jarr params →
      (∀ v ∈ params, ∃ q, v = JValue.jobj q) →
      (∃ q, JValue.jobj q ∈ params ∧ isStr (jGet q "type") "custom" = true ∧
        isStr (jGet q "name") "STACKID" = true) →
      getDS ("grafanacloud-" ++ slug ++ "-logs") = .error e →
      transformDashboard cfg slug fid getDS doc = .error (.fail e)) := by
  refine ⟨?_, ?_, ?_⟩
  · intro hds
    have htv := (isStr_eq_true_iff _ _).mp hds
    refine ⟨?_, ?_, ?_⟩
    · intro hname
      refine rewriteParam_ds slug getDS p hds _ ?_
      unfold dsRewrite
      rw [hds]
      rcases hname with h | h <;> rw [h] <;> simp
    · intro hname
      have hnv := (isStr_eq_true_iff _ _).mp hname
      refine rewriteParam_ds slug getDS p hds _ ?_
      unfold dsRewrite
      rw [hds, hnv]
      simp [isStr]
    · intro hname
      have hnv := (isStr_eq_true_iff _ _).mp hname
      refine rewriteParam_ds slug getDS p hds _ ?_
      unfold dsRewrite
      rw [hds, hnv]
      simp [isStr]
  · intro ht hn
    exact ⟨fun ds hds => rewriteParam_stackid_ok slug getDS p ht hn ds hds,
           fun e hds => rewriteParam_stackid_error slug getDS p ht hn e hds⟩
  · intro cfg fid doc dash t params e hdoc hdt hlist hobj hstack hds
    have e1 : jGet (jSet (jDel dash "folderId") "folderUid" (.jstr fid))
        "templating" = .jobj t := by
      rw [jGet_jSet_ne _ _ (by decide), jGet_jDel_ne _ (by decide), hdt]
    have e2 : rewriteParams slug getDS params = .error (.fail e) :=
      rewriteParams_error slug getDS e hds params hobj hstack
    unfold transformDashboard rewriteTemplating
    rw [hdoc]
    dsimp only
    rw [e1]
    dsimp only
    rw [hlist]
    dsimp only
    rw [e2]

/-- Witness for C8 at the concrete recognized variables and the `STACKID`
document, for both a successful and a failing datasource lookup. -/
theorem C8_datasource_table_witness :
    isStr (jGet pProm "type") "datasource" = true ∧
    isStr (jGet pProm "name") "PROMPRO" = true ∧
    rewriteParam "test-stack" dsOkUser pProm =
      .ok (jSet pProm "current"
        (selCurrent "grafanacloud-test-stack-prom" "grafanacloud-test-stack-prom")) ∧
    rewriteParam "test-stack" dsOkUser pLogs =
      .ok (jSet pLogs "current"
        (selCurrent "grafanacloud-test-stack-logs" "grafanacloud-test-stack-logs")) ∧
    rewriteParam "test-stack" dsOkUser pUsage =
      .ok (jSet pUsage "current"
        (selCurrent "grafanacloud-test-stack-usage-insights"
                    "grafanacloud-usage-insights")) ∧
    rewriteParam "test-stack" dsOkUser pStackid =
      .ok (jSet (jSet (jSet pStackid "current" (selCurrent "123456" "123456"))
            "options"
            (.jarr [.jobj [("selected", .jbool true), ("text", .jstr "123456"),
              ("value", .jstr "123456")]]))
          "query" (.jstr "123456")) ∧
    transformDashboard cfgEmpty "test-stack" "f" dsErr docStackid =
      .error (.fail "lookup failed") := by
  refine ⟨rfl, rfl, ?_, ?_, ?_, ?_, ?_⟩
  · exact ((C8_datasource_table "test-stack" dsOkUser pProm).1 rfl).1 (Or.inl rfl)
  · exact ((C8_datasource_table "test-stack" dsOkUser pLogs).1 rfl).2.1 rfl
  · exact ((C8_datasource_table "test-stack" dsOkUser pUsage).1 rfl).2.2 rfl
  · exact (((C8_datasource_table "test-stack" dsOkUser pStackid).2.1 rfl rfl).1
      ⟨"grafanacloud-test-stack-logs", "123456"⟩ rfl)
  · exact (C8_datasource_table "test-stack" dsErr pStackid).2.2 cfgEmpty "f"
      docStackid _ _ [JValue.jobj pStackid] "lookup failed" rfl rfl rfl
      (by intro v hv
          refine ⟨pStackid, ?_⟩
          simpa using hv)
      ⟨pStackid, by simp, rfl, rfl⟩ rfl

/-! ## Retry-coordinator helpers -/

theorem firstPass_count (o : String → Nat → Option String) (sts : List Stack) :
    ∀ (cnt : String → Nat) (fs : List (Stack × String)) (x : String),
      (firstPass (countSync o) sts cnt fs).1 x =
        cnt x + sts.countP (fun t => t.slug == x) := by
  induction sts with
  | nil => intro cnt fs x; simp [firstPass]
  | cons stack rest ih =>
      intro cnt fs x
      cases ho : o stack.slug (cnt stack.slug) with
      | none =>
          rw [show firstPass (countSync o) (stack :: rest) cnt fs =
              firstPass (countSync o) rest
                (fun y => if y = stack.slug then cnt stack.slug + 1 else cnt y)
                fs by simp [firstPass, countSync, ho]]
          rw [ih, List.countP_cons]
          by_cases hx : x = stack.slug
          · simp [hx]
            omega
          · have : (stack.slug == x) = false := by
              simp
              exact fun he => hx he.symm
            simp [hx, this]
      | some msg =>
          rw [show firstPass (countSync o) (stack :: rest) cnt fs =
              firstPass (countSync o) rest
                (fun y => if y = stack.slug then cnt stack.slug + 1 else cnt y)
                (fs ++ [(stack, msg)]) by simp [firstPass, countSync, ho]]
          rw [ih, List.countP_cons]
          by_cases hx : x = stack.slug
          · simp [hx]
            omega
          · have : (stack.slug == x) = false := by
              simp
              exact fun he => hx he.symm
            simp [hx, this]

theorem failsOf_cons (o : String → Nat → Option String) (stack : Stack)
    (rest : List Stack) :
    failsOf o (stack :: rest) =
      match o stack.slug 0 with
      | some m => (stack, m) :: failsOf o rest
      | none => failsOf o rest := by
  cases ho : o stack.slug 0 <;> simp [failsOf, List.filterMap_cons, ho]

theorem firstPass_failed (o : String → Nat → Option String) (sts : List Stack) :
    ∀ (cnt : String → Nat) (fs : List (Stack × String)),
      (∀ t ∈ sts, cnt t.slug = 0) →
      (sts.map (fun t => t.slug)).Nodup →
      (firstPass (countSync o) sts cnt fs).2 = fs ++ failsOf o sts := by
  induction sts with
  | nil => intro cnt fs _ _; simp [firstPass, failsOf]
  | cons stack rest ih =>
      intro cnt fs hcnt hnd
      rw [List.map_cons, List.nodup_cons] at hnd
      have hz : cnt stack.slug = 0 := hcnt stack (by simp)
      have hrest : ∀ t ∈ rest,
          (fun y => if y = stack.slug then cnt stack.slug + 1 else cnt y) t.slug
            = 0 := by
        intro t ht
        have hne : t.slug ≠ stack.slug := by
          intro he
          exact hnd.1 (he ▸ List.mem_map_of_mem (fun t => t.slug) ht)
        simp only [hne, if_false]
        exact hcnt t (by simp [ht])
      cases ho : o stack.slug 0 with
      | none =>
          rw [show firstPass (countSync o) (stack :: rest) cnt fs =
              firstPass (countSync o) rest
                (fun y => if y = stack.slug then cnt stack.slug + 1 else cnt y)
                fs by simp [firstPass, countSync, hz, ho]]
          rw [ih _ _ hrest hnd.2, failsOf_cons, ho]
      | some msg =>
          rw [show firstPass (countSync o) (stack :: rest) cnt fs =
              firstPass (countSync o) rest
                (fun y => if y = stack.slug then cnt stack.slug + 1 else cnt y)
                (fs ++ [(stack, msg)]) by simp [firstPass, countSync, hz, ho]]
          rw [ih _ _ hrest hnd.2, failsOf_cons, ho]
          simp

theorem failsOf_mem {o : String → Nat → Option String} {sts : List Stack}
    {p : Stack × String} (hp : p ∈ failsOf o sts) :
    p.1 ∈ sts ∧ o p.1.slug 0 = some p.2 := by
  rcases List.mem_filterMap.mp hp with ⟨t, ht, hmat⟩
  cases ho : o t.slug 0 with
  | some m =>
      rw [ho] at hmat
      cases hmat
      exact ⟨ht, ho⟩
  | none => rw [ho] at hmat; cases hmat

theorem failsOf_mem_of {o : String → Nat → Option String} {sts : List Stack}
    {s : Stack} {m : String} (hs : s ∈ sts) (hm : o s.slug 0 = some m) :
    (s, m) ∈ failsOf o sts :=
  List.mem_filterMap.mpr ⟨s, hs, by rw [hm]⟩

theorem failsOf_slugs_sublist (o : String → Nat → Option String)
    (sts : List Stack) :
    ((failsOf o sts).map (fun p => p.1.slug)).Sublist
      (sts.map (fun t => t.slug)) := by
  induction sts with
  | nil => simp [failsOf]
  | cons stack rest ih =>
      rw [failsOf_cons]
      cases ho : o stack.slug 0 with
      | some m => simpa using ih.cons₂ stack.slug
      | none => simpa using ih.cons stack.slug

theorem failsOf_countP (o : String → Nat → Option String) (sts : List Stack)
    (x : String) :
    (failsOf o sts).countP (fun p => p.1.slug == x) =
      sts.countP (fun t => t.slug == x && (o t.slug 0).isSome) := by
  induction sts with
  | nil => simp [failsOf]
  | cons stack rest ih =>
      rw [failsOf_cons]
      cases ho : o stack.slug 0 with
      | some m =>
          rw [List.countP_cons, List.countP_cons, ih, ho]
          simp
      | none =>
          rw [List.countP_cons, ih, ho]
          simp

theorem countP_slug_of_nodup (sts : List Stack)
    (hnd : (sts.map (fun t => t.slug)).Nodup) (s : Stack) (hs : s ∈ sts)
    (c : Stack → Bool) :
    sts.countP (fun t => t.slug == s.slug && c t) = if c s then 1 else 0 := by
  induction sts with
  | nil => cases hs
  | cons a rest ih =>
      rw [List.map_cons, List.nodup_cons] at hnd
      rcases List.mem_cons.mp hs with rfl | hs'
      · rw [List.countP_cons]
        have hz : rest.countP (fun t => t.slug == s.slug && c t) = 0 := by
          rw [List.countP_eq_zero]
          intro t ht
          simp only [Bool.and_eq_true, beq_iff_eq, not_and]
          intro he _
          exact hnd.1 (he ▸ List.mem_map_of_mem (fun t => t.slug) ht)
        rw [hz]
        simp
      · have hne : (a.slug == s.slug) = false := by
          simp
          intro he
          exact hnd.1 (he ▸ List.mem_map_of_mem (fun t => t.slug) hs')
        rw [List.countP_cons, ih hnd.2 hs']
        simp [hne]

theorem retryFailed_all_ok (o : String → Nat → Option String) :
    ∀ (failed : List (Stack × String)) (cnt : String → Nat),
      (∀ p ∈ failed, o p.1.slug 1 = none) →
      (∀ p ∈ failed, cnt p.1.slug = 1) →
      ((failed.map (fun p => p.1.slug)).Nodup) →
      (retryFailed (countSync o) failed cnt).2 = none ∧
      ∀ x, (retryFailed (countSync o) failed cnt).1 x =
        cnt x + failed.countP (fun p => p.1.slug == x) := by
  intro failed
  induction failed with
  | nil =>
      intro cnt _ _ _
      exact ⟨rfl, fun x => by simp [retryFailed]⟩
  | cons q rest ih =>
      intro cnt h1 hc hnd
      rw [List.map_cons, List.nodup_cons] at hnd
      have hz : cnt q.1.slug = 1 := hc q (by simp)
      have ho : o q.1.slug (cnt q.1.slug) = none := by
        rw [hz]
        exact h1 q (by simp)
      have hstep : retryFailed (countSync o) (q :: rest) cnt =
          retryFailed (countSync o) rest
            (fun y => if y = q.1.slug then cnt q.1.slug + 1 else cnt y) := by
        rcases q with ⟨stack, msg⟩
        simp [retryFailed, countSync, ho]
      have hcrest : ∀ p ∈ rest,
          (fun y => if y = q.1.slug then cnt q.1.slug + 1 else cnt y) p.1.slug
            = 1 := by
        intro p hp
        have hne : p.1.slug ≠ q.1.slug := by
          intro he
          exact hnd.1 (he ▸ List.mem_map_of_mem (fun p => p.1.slug) hp)
        simp only [hne, if_false]
        exact hc p (by simp [hp])
      obtain ⟨hres, hcount⟩ :=
        ih (fun y => if y = q.1.slug then cnt q.1.slug + 1 else cnt y)
          (fun p hp => h1 p (by simp [hp])) hcrest hnd.2
      refine ⟨by rw [hstep]; exact hres, ?_⟩
      intro x
      rw [hstep, hcount, List.countP_cons]
      by_cases hx : x = q.1.slug
      · simp [hx, hz]
        omega
      · have : (q.1.slug == x) = false := by
          simp
          exact fun he => hx he.symm
        simp [hx, this]

theorem retryFailed_abort (o : String → Nat → Option String) :
    ∀ (failed : List (Stack × String)) (cnt : String → Nat),
      (∀ p ∈ failed, cnt p.1.slug = 1) →
      ((failed.map (fun p => p.1.slug)).Nodup) →
      (∃ p ∈ failed, (o p.1.slug 1).isSome = true) →
      ∃ st msg, (∃ m0, (st, m0) ∈ failed) ∧ o st.slug 1 = some msg ∧
        (retryFailed (countSync o) failed cnt).2 =
          some ("Retry of stack " ++ st.slug ++ " failed: " ++ msg) := by
  intro failed
  induction failed with
  | nil =>
      intro cnt _ _ hex
      rcases hex with ⟨p, hp, _⟩
      cases hp
  | cons q rest ih =>
      intro cnt hc hnd hex
      rw [List.map_cons, List.nodup_cons] at hnd
      have hz : cnt q.1.slug = 1 := hc q (by simp)
      cases ho : o q.1.slug 1 with
      | some msg =>
          refine ⟨q.1, msg, ⟨q.2, by simp⟩, ho, ?_⟩
          rcases q with ⟨stack, m0⟩
          have ho2 : o stack.slug (cnt stack.slug) = some msg := by
            rw [show cnt stack.slug = 1 from hz]
            exact ho
          simp [retryFailed, countSync, ho2]
      | none =>
          have ho2 : o q.1.slug (cnt q.1.slug) = none := by rw [hz]; exact ho
          have hstep : retryFailed (countSync o) (q :: rest) cnt =
              retryFailed (countSync o) rest
                (fun y => if y = q.1.slug then cnt q.1.slug + 1 else cnt y) := by
            rcases q with ⟨stack, msg⟩
            simp [retryFailed, countSync, ho2]
          have hcrest : ∀ p ∈ rest,
              (fun y => if y = q.1.slug then cnt q.1.slug + 1 else cnt y) p.1.slug
                = 1 := by
            intro p hp
            have hne : p.1.slug ≠ q.1.slug := by
              intro he
              exact hnd.1 (he ▸ List.mem_map_of_mem (fun p => p.1.slug) hp)
            simp only [hne, if_false]
            exact hc p (by simp [hp])
          have hexr : ∃ p ∈ rest, (o p.1.slug 1).isSome = true := by
            rcases hex with ⟨p, hp, hps⟩
            rcases List.mem_cons.mp hp with rfl | hp'
            · rw [ho] at hps
              cases hps
            · exact ⟨p, hp', hps⟩
          rcases ih (fun y => if y = q.1.slug then cnt q.1.slug + 1 else cnt y)
              hcrest hnd.2 hexr with ⟨st, msg, ⟨m0, hm0⟩, h1, h2⟩
          exact ⟨st, msg, ⟨m0, by simp [hm0]⟩, h1, by rw [hstep]; exact h2⟩

theorem retryFailed_count_le (o : String → Nat → Option String) :
    ∀ (failed : List (Stack × String)) (cnt : String → Nat) (x : String),
      (retryFailed (countSync o) failed cnt).1 x ≤
        cnt x + failed.countP (fun p => p.1.slug == x) := by
  intro failed
  induction failed with
  | nil => intro cnt x; simp [retryFailed]
  | cons q rest ih =>
      intro cnt x
      rcases q with ⟨stack, msg⟩
      rw [List.countP_cons]
      cases ho : o stack.slug (cnt stack.slug) with
      | some m =>
          have hstep : retryFailed (countSync o) ((stack, msg) :: rest) cnt =
              ((fun y => if y = stack.slug then cnt stack.slug + 1 else cnt y),
               some ("Retry of stack " ++ stack.slug ++ " failed: " ++ m)) := by
            simp [retryFailed, countSync, ho]
          rw [hstep]
          by_cases hx : x = stack.slug
          · simp [hx]
          · simp [hx]
      | none =>
          have hstep : retryFailed (countSync o) ((stack, msg) :: rest) cnt =
              retryFailed (countSync o) rest
                (fun y => if y = stack.slug then cnt stack.slug + 1 else cnt y) := by
            simp [retryFailed, countSync, ho]
          rw [hstep]
          refine le_trans (ih _ x) ?_
          by_cases hx : x = stack.slug
          · simp [hx]
            omega
          · simp [hx]

theorem retryFailed_count_ge (o : String → Nat → Option String) :
    ∀ (failed : List (Stack × String)) (cnt : String → Nat) (x : String),
      cnt x ≤ (retryFailed (countSync o) failed cnt).1 x := by
  intro failed
  induction failed with
  | nil => intro cnt x; simp [retryFailed]
  | cons q rest ih =>
      intro cnt x
      rcases q with ⟨stack, msg⟩
      cases ho : o stack.slug (cnt stack.slug) with
      | some m =>
          have hstep : retryFailed (countSync o) ((stack, msg) :: rest) cnt =
              ((fun y => if y = stack.slug then cnt stack.slug + 1 else cnt y),
               some ("Retry of stack " ++ stack.slug ++ " failed: " ++ m)) := by
            simp [retryFailed, countSync, ho]
          rw [hstep]
          by_cases hx : x = stack.slug
          · simp [hx]
          · simp [hx]
      | none =>
          have hstep : retryFailed (countSync o) ((stack, msg) :: rest) cnt =
              retryFailed (countSync o) rest
                (fun y => if y = stack.slug then cnt stack.slug + 1 else cnt y) := by
            simp [retryFailed, countSync, ho]
          rw [hstep]
          refine le_trans ?_ (ih _ x)
          by_cases hx : x = stack.slug
          · simp [hx]
          · simp [hx]

/-- Claim C4: for one binding, the stacks failing the first pass — and only
those — are re-attempted exactly once; a stack failing again aborts
`syncDashboards` with that stack's wrapped error; first-pass successes are
never re-attempted; and when exactly one stack fails once and then
succeeds, the run succeeds with that stack attempted twice and every other
stack attempted exactly once. -/
theorem C4_retry_coordinator (o : String → Nat → Option String)
    (sts : List Stack) (hnd : (sts.map (fun t => t.slug)).Nodup) :
    (∀ s ∈ sts, o s.slug 0 = none →
      (syncDashboards (countSync o) true sts (fun _ => 0)).1 s.slug = 1) ∧
    (∀ s ∈ sts,
      (syncDashboards (countSync o) true sts (fun _ => 0)).1 s.slug ≤ 2 ∧
      ((syncDashboards (countSync o) true sts (fun _ => 0)).1 s.slug = 2 →
        (o s.slug 0).isSome = true)) ∧
    ((∀ s ∈ sts, (o s.slug 0).isSome = true → o s.slug 1 = none) →
      (syncDashboards (countSync o) true sts (fun _ => 0)).2 = none ∧
      ∀ s ∈ sts, (syncDashboards (countSync o) true sts (fun _ => 0)).1 s.slug =
        if (o s.slug 0).isSome then 2 else 1) ∧
    ((∃ s ∈ sts, (o s.slug 0).isSome = true ∧ (o s.slug 1).isSome = true) →
      ∃ s msg, s ∈ sts ∧ (o s.slug 0).isSome = true ∧ o s.slug 1 = some msg ∧
        (syncDashboards (countSync o) true sts (fun _ => 0)).2 =
          some ("Retry of stack " ++ s.slug ++ " failed: " ++ msg)) ∧
    (∀ s0 ∈ sts, ∀ m, o s0.slug 0 = some m → o s0.slug 1 = none →
      (∀ s ∈ sts, s.slug ≠ s0.slug → o s.slug 0 = none) →
      (syncDashboards (countSync o) true sts (fun _ => 0)).2 = none ∧
      (syncDashboards (countSync o) true sts (fun _ => 0)).1 s0.slug = 2 ∧
      ∀ s ∈ sts, s.slug ≠ s0.slug →
        (syncDashboards (countSync o) true sts (fun _ => 0)).1 s.slug = 1) := by
  have hinj := List.inj_on_of_nodup_map hnd
  have hfp2 : (firstPass (countSync o) sts (fun _ => 0) []).2 = failsOf o sts := by
    simpa using firstPass_failed o sts (fun _ => 0) [] (fun _ _ => rfl) hnd
  have hrun : syncDashboards (countSync o) true sts (fun _ => 0) =
      retryFailed (countSync o) (failsOf o sts)
        ((firstPass (countSync o) sts (fun _ => 0) []).1) := by
    unfold syncDashboards
    rw [if_pos rfl]
    rw [← hfp2]
  have hcnt1 : ∀ x, (firstPass (countSync o) sts (fun _ => 0) []).1 x =
      sts.countP (fun t => t.slug == x) := by
    intro x
    simpa using firstPass_count o sts (fun _ => 0) [] x
  have hone : ∀ s ∈ sts, sts.countP (fun t => t.slug == s.slug) = 1 := by
    intro s hs
    have h := countP_slug_of_nodup sts hnd s hs (fun _ => true)
    simpa using h
  have hcond : ∀ s ∈ sts, sts.countP
      (fun t => t.slug == s.slug && (o t.slug 0).isSome) =
      if (o s.slug 0).isSome then 1 else 0 :=
    fun s hs => countP_slug_of_nodup sts hnd s hs (fun t => (o t.slug 0).isSome)
  have hfails_cnt : ∀ p ∈ failsOf o sts,
      (firstPass (countSync o) sts (fun _ => 0) []).1 p.1.slug = 1 := by
    intro p hp
    rw [hcnt1]
    exact hone p.1 (failsOf_mem hp).1
  have hfails_nodup : ((failsOf o sts).map (fun p => p.1.slug)).Nodup :=
    (failsOf_slugs_sublist o sts).nodup hnd
  have hA : ∀ s ∈ sts, o s.slug 0 = none →
      (syncDashboards (countSync o) true sts (fun _ => 0)).1 s.slug = 1 := by
    intro s hs ho0
    rw [hrun]
    have hge := retryFailed_count_ge o (failsOf o sts)
      ((firstPass (countSync o) sts (fun _ => 0) []).1) s.slug
    have hle := retryFailed_count_le o (failsOf o sts)
      ((firstPass (countSync o) sts (fun _ => 0) []).1) s.slug
    rw [failsOf_countP, hcond s hs, ho0] at hle
    rw [hcnt1, hone s hs] at hge hle
    simp only [Option.isSome_none, Bool.false_eq_true, if_false] at hle
    omega
  have hB : ∀ s ∈ sts,
      (syncDashboards (countSync o) true sts (fun _ => 0)).1 s.slug ≤ 2 ∧
      ((syncDashboards (countSync o) true sts (fun _ => 0)).1 s.slug = 2 →
        (o s.slug 0).isSome = true) := by
    intro s hs
    have hle := retryFailed_count_le o (failsOf o sts)
      ((firstPass (countSync o) sts (fun _ => 0) []).1) s.slug
    rw [failsOf_countP, hcond s hs] at hle
    rw [hcnt1, hone s hs] at hle
    constructor
    · rw [hrun]
      by_cases hsome : (o s.slug 0).isSome = true
      · rw [hsome] at hle
        simpa using hle
      · rw [Bool.not_eq_true] at hsome
        rw [hsome] at hle
        simp at hle
        omega
    · intro h2
      cases hoo : o s.slug 0 with
      | some m => rfl
      | none =>
          exfalso
          rw [hA s hs hoo] at h2
          omega
  have hC : (∀ s ∈ sts, (o s.slug 0).isSome = true → o s.slug 1 = none) →
      (syncDashboards (countSync o) true sts (fun _ => 0)).2 = none ∧
      ∀ s ∈ sts, (syncDashboards (countSync o) true sts (fun _ => 0)).1 s.slug =
        if (o s.slug 0).isSome then 2 else 1 := by
    intro hall
    have h1 : ∀ p ∈ failsOf o sts, o p.1.slug 1 = none := by
      intro p hp
      obtain ⟨hmem, hsome⟩ := failsOf_mem hp
      exact hall p.1 hmem (by rw [hsome]; rfl)
    obtain ⟨hres, hcount⟩ := retryFailed_all_ok o (failsOf o sts)
      ((firstPass (countSync o) sts (fun _ => 0) []).1) h1 hfails_cnt hfails_nodup
    refine ⟨by rw [hrun]; exact hres, ?_⟩
    intro s hs
    rw [hrun, hcount, failsOf_countP, hcond s hs, hcnt1, hone s hs]
    cases hsome : (o s.slug 0).isSome <;> simp [hsome]
  have hD : (∃ s ∈ sts, (o s.slug 0).isSome = true ∧ (o s.slug 1).isSome = true) →
      ∃ s msg, s ∈ sts ∧ (o s.slug 0).isSome = true ∧ o s.slug 1 = some msg ∧
        (syncDashboards (countSync o) true sts (fun _ => 0)).2 =
          some ("Retry of stack " ++ s.slug ++ " failed: " ++ msg) := by
    intro hex
    rcases hex with ⟨s, hs, h0, h1s⟩
    rcases Option.isSome_iff_exists.mp h0 with ⟨m, hm⟩
    have hmem := failsOf_mem_of hs hm
    rcases retryFailed_abort o (failsOf o sts)
        ((firstPass (countSync o) sts (fun _ => 0) []).1) hfails_cnt hfails_nodup
        ⟨(s, m), hmem, h1s⟩ with ⟨st, msg, ⟨m0, hm0⟩, hret1, hret2⟩
    obtain ⟨hstm, hst0⟩ := failsOf_mem hm0
    exact ⟨st, msg, hstm, by rw [hst0]; rfl, hret1, by rw [hrun]; exact hret2⟩
  refine ⟨hA, hB, hC, hD, ?_⟩
  intro s0 hs0 m hm hs1 hothers
  have hall : ∀ s ∈ sts, (o s.slug 0).isSome = true → o s.slug 1 = none := by
    intro s hs hsome
    by_cases he : s.slug = s0.slug
    · have hss : s = s0 := hinj hs hs0 he
      rw [hss]
      exact hs1
    · rw [hothers s hs he] at hsome
      cases hsome
  obtain ⟨hres, hcnts⟩ := hC hall
  refine ⟨hres, ?_, ?_⟩
  · rw [hcnts s0 hs0, hm]
    rfl
  · intro s hs hne
    rw [hcnts s hs, hothers s hs hne]
    rfl

/-- Witness for C4 with stacks `a`, `b`, where `a` fails its first attempt
only: the run succeeds, `a` is attempted twice and `b` once. -/
theorem C4_retry_coordinator_witness :
    (([stackA, stackB].map (fun t => t.slug)).Nodup ∧
     stackA ∈ [stackA, stackB] ∧
     outcomeAB stackA.slug 0 = some "boom" ∧
     outcomeAB stackA.slug 1 = none) ∧
    ((syncDashboards (countSync outcomeAB) true [stackA, stackB]
        (fun _ => 0)).2 = none ∧
     (syncDashboards (countSync outcomeAB) true [stackA, stackB]
        (fun _ => 0)).1 stackA.slug = 2 ∧
     ∀ s ∈ [stackA, stackB], s.slug ≠ stackA.slug →
       (syncDashboards (countSync outcomeAB) true [stackA, stackB]
          (fun _ => 0)).1 s.slug = 1) :=
  ⟨⟨by decide, by decide, by decide, by decide⟩,
   (C4_retry_coordinator outcomeAB [stackA, stackB] (by decide)).2.2.2.2
     stackA (by decide) "boom" (by decide) (by decide)
     (by intro s hs hne
         rcases List.mem_cons.mp hs with rfl | hs'
         · exact absurd rfl hne
         · rcases List.mem_singleton.mp hs' with rfl
           rfl)⟩

end Grafana

